import Mathlib

/-!
# FinSimX: indicator engine and strategy state machine

A shallow embedding of `src/main.cpp` (classes `TechnicalIndicators` and
`AdvancedTradingStrategy`) and theorems about it.

Conventions of the embedding:

* `double` is read as exact arithmetic and embedded as `ℚ`; rounding, infinities and NaN
  are outside the embedding.
* `std::vector<double>` is `List ℚ`; an element read `v[i]` is `v.getD i 0`, an element
  write `v[i] = x` is `v.set i x`. `std::vector<PriceData>` is `List PriceData`, read
  with the default-constructed record as the out-of-range value.
* A `for` loop over an index range is `forLoop`, a left fold of the loop body over the
  indices; a loop body that ends in `continue` on several paths is an `if`/`else` chain.
* `int` parameters are `Int`; a value that the source converts to `size_t` goes through
  `toSizeT`, which wraps negative values by `2^64`, and the `int` sum `period + 1` of
  `calculateEMA` goes through `toInt32`, the 32-bit wrap-around.
* Where overflow, infinities and NaN matter, `calculateEMA` and `calculateRSI` are
  embedded a second time over `Dbl` (section "Doubles with overflow").
* `sqrt` of `<cmath>` has no exact counterpart on `ℚ`; functions that call it take it as
  the parameter `sqrt`.
* Console output (`cout`) is not modelled.
-/

namespace FinSimX

/-! ## Data model -/

/-- The record `struct PriceData` (lines 13-18). -/
structure PriceData where
  date : String := ""
  open_ : ℚ := 0
  high : ℚ := 0
  low : ℚ := 0
  close : ℚ := 0
  volume : ℚ := 0
deriving DecidableEq

/-- The record `struct TradingSignal` (lines 20-29). -/
structure TradingSignal where
  date : String
  action : String
  price : ℚ
  rsi : ℚ
  macd : ℚ
  signal : ℚ
  portfolio_value : ℚ
  reason : String
deriving DecidableEq

/-- The record `struct MACDResult` (lines 31-35). -/
structure MACDResult where
  macd : List ℚ
  signal : List ℚ
  histogram : List ℚ
deriving DecidableEq

/-! ## Loops and integer conversions -/

/-- The value of an integer expression once stored in a 64-bit `size_t`: a negative
value wraps around by `2^64` (used for `(size_t)period`, `period - 1`, `i - j`, `i - 1`). -/
def toSizeT (z : Int) : Nat :=
  if z < 0 then (z + 18446744073709551616).toNat else z.toNat

/-- The value of an integer expression once stored in a 32-bit `int`: two's-complement
wrap-around, which is what the addition `period + 1` does at `INT_MAX` on the usual
targets. -/
def toInt32 (z : Int) : Int :=
  (z + 2147483648) % 4294967296 - 2147483648

/-- The loop `for (i = start; i < stop; ++i) state = body state i`. -/
def forLoop {σ : Type} (start stop : Nat) (body : σ → Nat → σ) (init : σ) : σ :=
  (List.range' start (stop - start)).foldl body init

/-! ## TechnicalIndicators -/

/-- The inner loop shared by `calculateSMA` and `calculateBollingerBands`:
`sum = 0; for (int j = 0; j < period; ++j) sum += prices[i - j];`. -/
def windowSum (prices : List ℚ) (period : Int) (i : Nat) : ℚ :=
  forLoop 0 period.toNat (fun sum j => sum + prices.getD (toSizeT ((i : Int) - (j : Int))) 0) 0

/-- `TechnicalIndicators::calculateSMA` (lines 39-51). -/
def calculateSMA (prices : List ℚ) (period : Int) : List ℚ :=
  let sma := List.replicate prices.length (0 : ℚ)
  if prices.length < toSizeT period then sma
  else
    forLoop (toSizeT (period - 1)) prices.length
      (fun sma i => sma.set i (windowSum prices period i / (period : ℚ))) sma

/-- `TechnicalIndicators::calculateEMA` (lines 52-64). The `int` sum `period + 1` wraps
at `INT_MAX`. For `period = -1` the source divides by zero and its multiplier is `+inf`,
which has no value in `ℚ` (the quotient `2 / 0` of `ℚ` stands there): `calculateEMADbl`
gives the source's result at that period, and no theorem about `calculateEMA` is stated
there. -/
def calculateEMA (prices : List ℚ) (period : Int) : List ℚ :=
  let ema := List.replicate prices.length (0 : ℚ)
  if prices.isEmpty then ema
  else
    let multiplier : ℚ := 2 / ((toInt32 (period + 1) : Int) : ℚ)
    let ema := ema.set 0 (prices.getD 0 0)
    forLoop 1 prices.length
      (fun ema i => ema.set i (prices.getD i 0 * multiplier + ema.getD (i - 1) 0 * (1 - multiplier)))
      ema

/-- The vector `gains` built by the first loop of `calculateRSI` (lines 70-75). -/
def rsiGains (prices : List ℚ) : List ℚ :=
  forLoop 1 prices.length
    (fun gains i =>
      let change := prices.getD i 0 - prices.getD (i - 1) 0
      gains ++ [if change > 0 then change else 0]) []

/-- The vector `losses` built by the first loop of `calculateRSI` (lines 70-75). -/
def rsiLosses (prices : List ℚ) : List ℚ :=
  forLoop 1 prices.length
    (fun losses i =>
      let change := prices.getD i 0 - prices.getD (i - 1) 0
      losses ++ [if change < 0 then -change else 0]) []

/-- The loop state of the Wilder smoothing loop of `calculateRSI`. -/
structure RSIState where
  avg_gain : ℚ
  avg_loss : ℚ
  rsi : List ℚ

/-- The body of the smoothing loop of `calculateRSI` (lines 86-95). -/
def rsiStep (gains losses : List ℚ) (period : Int) (s : RSIState) (i : Nat) : RSIState :=
  if toSizeT ((i : Int) - 1) < gains.length then
    let avg_gain :=
      (s.avg_gain * ((period - 1 : Int) : ℚ) + gains.getD (toSizeT ((i : Int) - 1)) 0) / (period : ℚ)
    let avg_loss :=
      (s.avg_loss * ((period - 1 : Int) : ℚ) + losses.getD (toSizeT ((i : Int) - 1)) 0) / (period : ℚ)
    if avg_loss = 0 then
      { avg_gain := avg_gain, avg_loss := avg_loss, rsi := s.rsi.set i 100 }
    else
      { avg_gain := avg_gain, avg_loss := avg_loss,
        rsi := s.rsi.set i (100 - 100 / (1 + avg_gain / avg_loss)) }
  else s

/-- The seed of the smoothing loop of `calculateRSI` (lines 77-83): the sums of the first
`period` gains and losses, each divided by `period`. -/
def rsiSeed (gains losses : List ℚ) (period : Int) (rsi : List ℚ) : RSIState :=
  let sums := forLoop 0 period.toNat
    (fun (a : ℚ × ℚ) i => (a.1 + gains.getD i 0, a.2 + losses.getD i 0)) (0, 0)
  { avg_gain := sums.1 / (period : ℚ), avg_loss := sums.2 / (period : ℚ), rsi := rsi }

/-- `TechnicalIndicators::calculateRSI` (lines 66-99). -/
def calculateRSI (prices : List ℚ) (period : Int) : List ℚ :=
  let rsi := List.replicate prices.length (50 : ℚ)
  if prices.length ≤ toSizeT period then rsi
  else
    let gains := rsiGains prices
    let losses := rsiLosses prices
    (forLoop (toSizeT period) prices.length (rsiStep gains losses period)
      (rsiSeed gains losses period rsi)).rsi

/-- `TechnicalIndicators::calculateMACD` (lines 101-124). -/
def calculateMACD (prices : List ℚ) (fast_period slow_period signal_period : Int) : MACDResult :=
  let ema_fast := calculateEMA prices fast_period
  let ema_slow := calculateEMA prices slow_period
  let macd := forLoop 0 prices.length
    (fun macd i => macd.set i (ema_fast.getD i 0 - ema_slow.getD i 0))
    (List.replicate prices.length (0 : ℚ))
  let signal := calculateEMA macd signal_period
  let histogram := forLoop 0 prices.length
    (fun histogram i => histogram.set i (macd.getD i 0 - signal.getD i 0))
    (List.replicate prices.length (0 : ℚ))
  { macd := macd, signal := signal, histogram := histogram }

/-- The second inner loop of `calculateBollingerBands` (lines 136-139):
`variance = 0; for (int j = 0; j < period; ++j) variance += pow(prices[i - j] - sma, 2);`. -/
def windowVariance (prices : List ℚ) (period : Int) (i : Nat) (sma : ℚ) : ℚ :=
  forLoop 0 period.toNat
    (fun variance j => variance + (prices.getD (toSizeT ((i : Int) - (j : Int))) 0 - sma) ^ 2) 0

/-- `TechnicalIndicators::calculateBollingerBands` (lines 126-146); `sqrt` is the
square root of `<cmath>`. -/
def calculateBollingerBands (sqrt : ℚ → ℚ) (prices : List ℚ) (period : Int) (std_dev : ℚ) :
    List ℚ :=
  forLoop (toSizeT (period - 1)) prices.length
    (fun bb_lower i =>
      let sma := windowSum prices period i / (period : ℚ)
      let variance := windowVariance prices period i sma
      let std := sqrt (variance / (period : ℚ))
      bb_lower.set i (sma - std * std_dev))
    (List.replicate prices.length (0 : ℚ))

/-! ## AdvancedTradingStrategy -/

/-- Strategy parameter `rsi_oversold` (line 226); the parameters are private members with
in-class initialisers that no method assigns, so they are constants here. -/
def rsi_oversold : ℚ := 25

/-- Strategy parameter `rsi_overbought` (line 227). -/
def rsi_overbought : ℚ := 75

/-- Risk parameter `stop_loss_pct` (line 232), `0.08`. -/
def stop_loss_pct : ℚ := 8 / 100

/-- Risk parameter `take_profit_pct` (line 233), `0.12`. -/
def take_profit_pct : ℚ := 12 / 100

/-- Risk parameter `position_size_pct` (line 234), `0.90`. -/
def position_size_pct : ℚ := 90 / 100

/-- Risk parameter `max_consecutive_losses` (line 238). -/
def max_consecutive_losses : Int := 3

/-- The mutable members of `class AdvancedTradingStrategy` (lines 220-237). -/
structure AdvancedTradingStrategy where
  cash : ℚ
  shares : ℚ
  initial_capital : ℚ
  trade_history : List TradingSignal
  entry_price : ℚ
  consecutive_losses : Int
deriving DecidableEq

/-- The constructor `AdvancedTradingStrategy(double initial_cash = 100000.0)`
(lines 241-242) with the in-class initialisers of `entry_price` and
`consecutive_losses`. -/
def AdvancedTradingStrategy.new (initial_cash : ℚ) : AdvancedTradingStrategy :=
  { cash := initial_cash, shares := 0, initial_capital := initial_cash,
    trade_history := [], entry_price := 0, consecutive_losses := 0 }

/-- `AdvancedTradingStrategy::executeTrade` (lines 379-416). -/
def executeTrade (st : AdvancedTradingStrategy) (data : PriceData) (action reason : String)
    (rsi macd signal_val : ℚ) : AdvancedTradingStrategy :=
  let st1 : AdvancedTradingStrategy :=
    if action = "BUY" ∧ st.shares = 0 ∧ st.cash > data.close then
      let investment := st.cash * position_size_pct
      let shares := investment / data.close
      { st with shares := shares, cash := st.cash - shares * data.close,
                entry_price := data.close }
    else if action = "SELL" ∧ st.shares > 0 then
      let sale_proceeds := st.shares * data.close
      { st with cash := st.cash + sale_proceeds, shares := 0, entry_price := 0 }
    else st
  { st1 with trade_history := st1.trade_history ++
      [{ date := data.date, action := action, price := data.close, rsi := rsi, macd := macd,
         signal := signal_val, portfolio_value := st1.cash + st1.shares * data.close,
         reason := reason }] }

/-- The local vectors that `backtest` computes before its main loop (lines 249-260). -/
structure Indicators where
  prices : List ℚ
  rsi : List ℚ
  rsi_short : List ℚ
  macd_result : MACDResult
  sma_20 : List ℚ
  sma_50 : List ℚ
  bb_lower : List ℚ

/-- The indicator computation of `backtest` (lines 249-260). -/
def backtestIndicators (sqrt : ℚ → ℚ) (price_data : List PriceData) : Indicators :=
  let prices := price_data.map (fun data => data.close)
  { prices := prices,
    rsi := calculateRSI prices 14,
    rsi_short := calculateRSI prices 7,
    macd_result := calculateMACD prices 12 26 9,
    sma_20 := calculateSMA prices 20,
    sma_50 := calculateSMA prices 50,
    bb_lower := calculateBollingerBands sqrt prices 20 2 }

/-- The local `uptrend` of the loop body (line 276). -/
def uptrend (ind : Indicators) (i : Nat) : Bool :=
  decide (ind.sma_20.getD i 0 > ind.sma_50.getD i 0)

/-- The local `macd_bullish` of the loop body (line 277). -/
def macd_bullish (ind : Indicators) (i : Nat) : Bool :=
  decide (ind.macd_result.macd.getD i 0 > ind.macd_result.signal.getD i 0)

/-- The local `macd_crossover_up` of the loop body (line 278); `i - 1` does not wrap
since the loop starts at 50. -/
def macd_crossover_up (ind : Indicators) (i : Nat) : Bool :=
  decide (ind.macd_result.macd.getD (i - 1) 0 ≤ ind.macd_result.signal.getD (i - 1) 0) &&
    decide (ind.macd_result.macd.getD i 0 > ind.macd_result.signal.getD i 0)

/-- The local `macd_crossover_down` of the loop body (line 279). -/
def macd_crossover_down (ind : Indicators) (i : Nat) : Bool :=
  decide (ind.macd_result.macd.getD (i - 1) 0 ≥ ind.macd_result.signal.getD (i - 1) 0) &&
    decide (ind.macd_result.macd.getD i 0 < ind.macd_result.signal.getD i 0)

/-- The local `current_return` of the risk-management block (line 286). -/
def current_return (ind : Indicators) (st : AdvancedTradingStrategy) (i : Nat) : ℚ :=
  (ind.prices.getD i 0 - st.entry_price) / st.entry_price

/-- The path to the stop-loss exit: lines 285 and 289. -/
def stopLossHit (ind : Indicators) (st : AdvancedTradingStrategy) (i : Nat) : Bool :=
  decide ((st.shares > 0 ∧ st.entry_price > 0) ∧ current_return ind st i ≤ -stop_loss_pct)

/-- The path to the take-profit exit: lines 285 and 295. -/
def takeProfitHit (ind : Indicators) (st : AdvancedTradingStrategy) (i : Nat) : Bool :=
  decide ((st.shares > 0 ∧ st.entry_price > 0) ∧ current_return ind st i ≥ take_profit_pct)

/-- The guard of the BUY block (line 303). -/
def buyAllowed (ind : Indicators) (st : AdvancedTradingStrategy) (i : Nat) : Bool :=
  decide (st.shares = 0 ∧ st.cash > ind.prices.getD i 0 ∧
    st.consecutive_losses < max_consecutive_losses)

/-- BUY signal 1 (lines 306-307). -/
def buySignal1 (ind : Indicators) (i : Nat) : Bool :=
  decide (ind.rsi.getD i 0 < rsi_oversold) && decide (ind.rsi_short.getD i 0 < 30) &&
    macd_bullish ind i && uptrend ind i

/-- BUY signal 2 (line 314). -/
def buySignal2 (ind : Indicators) (i : Nat) : Bool :=
  macd_crossover_up ind i && decide (ind.rsi.getD i 0 > 30) && decide (ind.rsi.getD i 0 < 60) &&
    uptrend ind i

/-- BUY signal 3 (lines 321-322). -/
def buySignal3 (ind : Indicators) (i : Nat) : Bool :=
  decide (ind.prices.getD i 0 ≤ ind.bb_lower.getD i 0 * (102 / 100)) &&
    decide (ind.rsi.getD i 0 < 35) && decide (ind.prices.getD i 0 > ind.prices.getD (i - 1) 0)

/-- BUY signal 4 (line 329). -/
def buySignal4 (ind : Indicators) (i : Nat) : Bool :=
  decide (ind.rsi.getD i 0 < 30) && uptrend ind i &&
    decide (ind.macd_result.histogram.getD i 0 > ind.macd_result.histogram.getD (i - 1) 0)

/-- SELL signal 1 (line 340). -/
def sellSignal1 (ind : Indicators) (i : Nat) : Bool :=
  decide (ind.rsi.getD i 0 > rsi_overbought) && !macd_bullish ind i

/-- SELL signal 2 (line 347). -/
def sellSignal2 (ind : Indicators) (i : Nat) : Bool :=
  macd_crossover_down ind i && decide (ind.rsi.getD i 0 > 50)

/-- SELL signal 3 (line 354). -/
def sellSignal3 (ind : Indicators) (i : Nat) : Bool :=
  !uptrend ind i && decide (ind.sma_20.getD (i - 1) 0 > ind.sma_50.getD (i - 1) 0)

/-- The HOLD record appended at the end of the loop body (lines 361-372). -/
def holdSignal (ind : Indicators) (price_data : List PriceData)
    (st : AdvancedTradingStrategy) (i : Nat) : TradingSignal :=
  { date := (price_data.getD i {}).date, action := "HOLD", price := ind.prices.getD i 0,
    rsi := ind.rsi.getD i 0, macd := ind.macd_result.macd.getD i 0,
    signal := ind.macd_result.signal.getD i 0,
    portfolio_value := st.cash + st.shares * ind.prices.getD i 0, reason := "No signal" }

/-- The body of the main loop of `backtest` for bar `i` (lines 267-372). Every arm of
the chain is one path of the source to a `continue`, in source order; the last arm is
the HOLD record at the end of the body. -/
def backtestStep (ind : Indicators) (price_data : List PriceData)
    (st : AdvancedTradingStrategy) (i : Nat) : AdvancedTradingStrategy :=
  let bar := price_data.getD i {}
  let current_rsi := ind.rsi.getD i 0
  let current_macd := ind.macd_result.macd.getD i 0
  let current_signal := ind.macd_result.signal.getD i 0
  if stopLossHit ind st i then
    let st1 := executeTrade st bar "SELL" "Stop Loss" current_rsi current_macd current_signal
    { st1 with consecutive_losses := st1.consecutive_losses + 1 }
  else if takeProfitHit ind st i then
    let st1 := executeTrade st bar "SELL" "Take Profit" current_rsi current_macd current_signal
    { st1 with consecutive_losses := 0 }
  else if buyAllowed ind st i ∧ buySignal1 ind i then
    executeTrade st bar "BUY" "Strong Oversold + MACD Bull + Uptrend"
      current_rsi current_macd current_signal
  else if buyAllowed ind st i ∧ buySignal2 ind i then
    executeTrade st bar "BUY" "MACD Crossover + RSI Neutral + Uptrend"
      current_rsi current_macd current_signal
  else if buyAllowed ind st i ∧ buySignal3 ind i then
    executeTrade st bar "BUY" "BB Lower Bounce + RSI Oversold"
      current_rsi current_macd current_signal
  else if buyAllowed ind st i ∧ buySignal4 ind i then
    executeTrade st bar "BUY" "RSI Oversold + Uptrend + MACD Improving"
      current_rsi current_macd current_signal
  else if st.shares > 0 ∧ sellSignal1 ind i then
    executeTrade st bar "SELL" "RSI Overbought + MACD Bearish"
      current_rsi current_macd current_signal
  else if st.shares > 0 ∧ sellSignal2 ind i then
    executeTrade st bar "SELL" "MACD Bearish Crossover" current_rsi current_macd current_signal
  else if st.shares > 0 ∧ sellSignal3 ind i then
    executeTrade st bar "SELL" "Trend Reversal" current_rsi current_macd current_signal
  else
    { st with trade_history := st.trade_history ++ [holdSignal ind price_data st i] }

/-- The strategy state after the first `k` iterations of the main loop of `backtest`
(bars `50 .. 50 + k - 1`). -/
def backtestAfter (sqrt : ℚ → ℚ) (st : AdvancedTradingStrategy) (price_data : List PriceData)
    (k : Nat) : AdvancedTradingStrategy :=
  forLoop 50 (50 + k) (backtestStep (backtestIndicators sqrt price_data) price_data) st

/-- `AdvancedTradingStrategy::backtest` (lines 244-376): the outcome (`error` for the
`runtime_error` thrown at line 246) and the state of the object afterwards. -/
def backtest (sqrt : ℚ → ℚ) (st : AdvancedTradingStrategy) (price_data : List PriceData) :
    Except String Unit × AdvancedTradingStrategy :=
  if price_data.length < 50 then
    (Except.error "Insufficient data for backtesting", st)
  else
    (Except.ok (),
      forLoop 50 price_data.length
        (backtestStep (backtestIndicators sqrt price_data) price_data) st)

/-! ## Specification-side definitions -/

/-- The arithmetic mean `(P[i-p+1] + ... + P[i]) / p` of the `p`-window ending at `i`. -/
def windowMean (P : List ℚ) (p i : Nat) : ℚ :=
  (∑ j in Finset.range p, P.getD (i + 1 - p + j) 0) / (p : ℚ)

/-- The population variance of the `p`-window ending at `i`: the sum of the squared
deviations from the window mean, divided by `p`. -/
def windowPopVariance (P : List ℚ) (p i : Nat) : ℚ :=
  (∑ j in Finset.range p, (P.getD (i + 1 - p + j) 0 - windowMean P p i) ^ 2) / (p : ℚ)

/-- The invariant of the smoothing loop of `calculateRSI`: both averages are
non-negative and every entry written so far lies in `[0, 100]`. -/
def RSIInv (s : RSIState) : Prop :=
  0 ≤ s.avg_gain ∧ 0 ≤ s.avg_loss ∧ ∀ x ∈ s.rsi, 0 ≤ x ∧ x ≤ 100

/-- The first smoothed average gain of `calculateRSI`, the one computed at index `p`:
the seed average smoothed with `gains[p - 1]`. -/
def rsiFirstGain (P : List ℚ) (p : Nat) : ℚ :=
  ((rsiSeed (rsiGains P) (rsiLosses P) (p : Int) []).avg_gain * ((p : ℚ) - 1) +
    (rsiGains P).getD (p - 1) 0) / (p : ℚ)

/-- The first smoothed average loss of `calculateRSI`, the one computed at index `p`. -/
def rsiFirstLoss (P : List ℚ) (p : Nat) : ℚ :=
  ((rsiSeed (rsiGains P) (rsiLosses P) (p : Int) []).avg_loss * ((p : ℚ) - 1) +
    (rsiLosses P).getD (p - 1) 0) / (p : ℚ)

/-- The portfolio invariant: no short position, and a position is open exactly when an
entry price is recorded. -/
def PortfolioInv (st : AdvancedTradingStrategy) : Prop :=
  0 ≤ st.shares ∧ (0 < st.shares ↔ 0 < st.entry_price) ∧
    (st.shares = 0 → st.entry_price = 0)

/-- The actions of the BUY and SELL entries of a signal log, in order (HOLDs dropped). -/
def tradeActions (log : List TradingSignal) : List String :=
  (log.map (fun s => s.action)).filter (fun a => decide (a = "BUY" ∨ a = "SELL"))

/-- Strict alternation of a list of actions: with `expectBuy = true` the list reads
BUY, SELL, BUY, ...; with `expectBuy = false` it reads SELL, BUY, SELL, ... -/
def alternatesFrom : Bool → List String → Bool
  | _, [] => true
  | expectBuy, a :: rest =>
    (a == (if expectBuy then "BUY" else "SELL")) && alternatesFrom (!expectBuy) rest

/-- The action that a strictly alternating list started with `expectBuy` expects after
the list `l`: `true` for BUY, `false` for SELL. -/
def nextExpect : Bool → List String → Bool
  | expectBuy, [] => expectBuy
  | expectBuy, _ :: rest => nextExpect (!expectBuy) rest

/-- The invariant behind the alternation of the signal log: the trades logged so far
alternate from a BUY, the next trade expected is a BUY exactly when the portfolio is
flat, and the position is never short. -/
def LogInv (st : AdvancedTradingStrategy) : Prop :=
  alternatesFrom true (tradeActions st.trade_history) = true ∧
    (nextExpect true (tradeActions st.trade_history) = true ↔ st.shares = 0) ∧
    0 ≤ st.shares

/-- Bisection for the integer square root: the largest `r` in `[lo, hi)` with
`r * r ≤ n`, found in at most `fuel` halvings. -/
def isqrtLoop : Nat → Nat → Nat → Nat → Nat
  | 0, _, lo, _ => lo
  | fuel + 1, n, lo, hi =>
    if hi ≤ lo + 1 then lo
    else if (lo + hi) / 2 * ((lo + hi) / 2) ≤ n then isqrtLoop fuel n ((lo + hi) / 2) hi
    else isqrtLoop fuel n lo ((lo + hi) / 2)

/-- A sample square-root function for concrete evaluations: the square root rounded
down to three decimals (for arguments below `2^44`; `0` for negative arguments). -/
def sqrtApprox (x : ℚ) : ℚ :=
  (isqrtLoop 64 (x.num * 1000000 / (x.den : Int)).toNat 0
    ((x.num * 1000000 / (x.den : Int)).toNat + 1) : ℚ) / 1000

/-- A series of sixty bars with closes `100, 101, ..., 159`. -/
def risingBars : List PriceData :=
  (List.range 60).map (fun (n : Nat) => { close := (n : ℚ) + 100 })

/-- A series of sixty-eight bars: a slow rise from `100` to `104.9`, a fall to `80`, a
bounce that triggers a BUY at `81`, and a further fall that triggers the stop loss. -/
def tradeBars : List PriceData :=
  ((List.range 50).map (fun (n : Nat) => ({ close := 100 + (n : ℚ) / 10 } : PriceData))) ++
    ([100, 95, 90, 85, 80, 81, 82, 83, 75, 70, 71, 72, 80, 90, 95, 85, 70, 71] : List ℚ).map
      (fun c => ({ close := c } : PriceData))

/-- Entry predicate (a): `rsi14 < 25`, `rsi7 < 30`, `macd > signal` and
`sma20 > sma50` at bar `i`. -/
def entryA (ind : Indicators) (i : Nat) : Prop :=
  ind.rsi.getD i 0 < 25 ∧ ind.rsi_short.getD i 0 < 30 ∧
    ind.macd_result.macd.getD i 0 > ind.macd_result.signal.getD i 0 ∧
    ind.sma_20.getD i 0 > ind.sma_50.getD i 0

/-- Entry predicate (b): MACD cross-up (`macd[i-1] ≤ signal[i-1]` and
`macd[i] > signal[i]`), `30 < rsi14 < 60` and uptrend (`sma20 > sma50`). -/
def entryB (ind : Indicators) (i : Nat) : Prop :=
  (ind.macd_result.macd.getD (i - 1) 0 ≤ ind.macd_result.signal.getD (i - 1) 0 ∧
    ind.macd_result.macd.getD i 0 > ind.macd_result.signal.getD i 0) ∧
    30 < ind.rsi.getD i 0 ∧ ind.rsi.getD i 0 < 60 ∧
    ind.sma_20.getD i 0 > ind.sma_50.getD i 0

/-- Entry predicate (c): `price[i] ≤ bollingerLower[i] * 1.02`, `rsi14 < 35` and
`price[i] > price[i-1]`. -/
def entryC (ind : Indicators) (i : Nat) : Prop :=
  ind.prices.getD i 0 ≤ ind.bb_lower.getD i 0 * (102 / 100) ∧ ind.rsi.getD i 0 < 35 ∧
    ind.prices.getD i 0 > ind.prices.getD (i - 1) 0

/-- Entry predicate (d): `rsi14 < 30`, uptrend and `histogram[i] > histogram[i-1]`. -/
def entryD (ind : Indicators) (i : Nat) : Prop :=
  ind.rsi.getD i 0 < 30 ∧ ind.sma_20.getD i 0 > ind.sma_50.getD i 0 ∧
    ind.macd_result.histogram.getD i 0 > ind.macd_result.histogram.getD (i - 1) 0

/-- Exit predicate (a): `rsi14 > 75` and not `macd > signal`. -/
def exitA (ind : Indicators) (i : Nat) : Prop :=
  ind.rsi.getD i 0 > 75 ∧
    ¬ ind.macd_result.macd.getD i 0 > ind.macd_result.signal.getD i 0

/-- Exit predicate (b): MACD cross-down (`macd[i-1] ≥ signal[i-1]` and
`macd[i] < signal[i]`) and `rsi14 > 50`. -/
def exitB (ind : Indicators) (i : Nat) : Prop :=
  (ind.macd_result.macd.getD (i - 1) 0 ≥ ind.macd_result.signal.getD (i - 1) 0 ∧
    ind.macd_result.macd.getD i 0 < ind.macd_result.signal.getD i 0) ∧
    ind.rsi.getD i 0 > 50

/-- Exit predicate (c): `sma20[i] ≤ sma50[i]` and `sma20[i-1] > sma50[i-1]`. -/
def exitC (ind : Indicators) (i : Nat) : Prop :=
  ind.sma_20.getD i 0 ≤ ind.sma_50.getD i 0 ∧
    ind.sma_20.getD (i - 1) 0 > ind.sma_50.getD (i - 1) 0

/-- The invariant behind the lock-out: the loss streak never exceeds
`max_consecutive_losses = 3`, and when it is `3` the portfolio is flat. -/
def LockInv (st : AdvancedTradingStrategy) : Prop :=
  st.consecutive_losses ≤ 3 ∧ (st.consecutive_losses = 3 → st.shares = 0)

/-- The fifty bars `100.0, 100.1, ..., 104.9` followed by the closes `l`. -/
def barsAfterRise (l : List ℚ) : List PriceData :=
  ((List.range 50).map (fun (n : Nat) => ({ close := 100 + (n : ℚ) / 10 } : PriceData))) ++
    l.map (fun c => ({ close := c } : PriceData))

/-- A series on which the run buys at `81` and takes profit at `92`. -/
def profitBars : List PriceData :=
  barsAfterRise [100, 95, 90, 85, 80, 81, 82, 83, 92, 93]

/-- A series on which the run hits three stop losses in a row (at `74`, `68` and `46`). -/
def lockBars : List PriceData :=
  barsAfterRise [100, 95, 90, 85, 80, 81, 74, 75, 68, 50, 51, 46, 47, 48, 49, 50, 51, 52]

/-! ## Checked reads and writes

The same functions with every vector access checked: a read or a write at an index
outside the vector gives `none`. -/

/-- The read `v[i]`, failing when `i` is out of range. -/
def readAt (v : List ℚ) (i : Nat) : Option ℚ :=
  v[i]?

/-- The write `v[i] = x`, failing when `i` is out of range. -/
def writeAt (v : List ℚ) (i : Nat) (x : ℚ) : Option (List ℚ) :=
  if i < v.length then some (v.set i x) else none

/-- The loop `forLoop` with a body that can fail. -/
def forLoopChecked {σ : Type} (start stop : Nat) (body : σ → Nat → Option σ) (init : σ) :
    Option σ :=
  (List.range' start (stop - start)).foldlM body init

/-- The inner loop `windowSum` with checked reads. -/
def windowSumChecked (prices : List ℚ) (period : Int) (i : Nat) : Option ℚ :=
  forLoopChecked 0 period.toNat
    (fun sum j => (readAt prices (toSizeT ((i : Int) - (j : Int)))).bind
      (fun x => some (sum + x))) 0

/-- `calculateSMA` with checked reads and writes. -/
def calculateSMAChecked (prices : List ℚ) (period : Int) : Option (List ℚ) :=
  let sma := List.replicate prices.length (0 : ℚ)
  if prices.length < toSizeT period then some sma
  else
    forLoopChecked (toSizeT (period - 1)) prices.length
      (fun sma i => (windowSumChecked prices period i).bind
        (fun sum => writeAt sma i (sum / (period : ℚ)))) sma

/-- `calculateEMA` with checked reads and writes. -/
def calculateEMAChecked (prices : List ℚ) (period : Int) : Option (List ℚ) :=
  let ema := List.replicate prices.length (0 : ℚ)
  if prices.isEmpty then some ema
  else
    let multiplier : ℚ := 2 / ((toInt32 (period + 1) : Int) : ℚ)
    (readAt prices 0).bind (fun p0 =>
    (writeAt ema 0 p0).bind (fun ema =>
    forLoopChecked 1 prices.length
      (fun ema i => (readAt prices i).bind (fun x =>
        (readAt ema (i - 1)).bind (fun y =>
          writeAt ema i (x * multiplier + y * (1 - multiplier)))))
      ema))

/-- The vector `gains` of `calculateRSI` with checked reads. -/
def rsiGainsChecked (prices : List ℚ) : Option (List ℚ) :=
  forLoopChecked 1 prices.length
    (fun gains i => (readAt prices i).bind (fun a =>
      (readAt prices (i - 1)).bind (fun b =>
        some (gains ++ [if a - b > 0 then a - b else 0])))) []

/-- The vector `losses` of `calculateRSI` with checked reads. -/
def rsiLossesChecked (prices : List ℚ) : Option (List ℚ) :=
  forLoopChecked 1 prices.length
    (fun losses i => (readAt prices i).bind (fun a =>
      (readAt prices (i - 1)).bind (fun b =>
        some (losses ++ [if a - b < 0 then -(a - b) else 0])))) []

/-- The seed of the smoothing loop of `calculateRSI` with checked reads. -/
def rsiSeedChecked (gains losses : List ℚ) (period : Int) (rsi : List ℚ) : Option RSIState :=
  (forLoopChecked 0 period.toNat
    (fun (a : ℚ × ℚ) i => (readAt gains i).bind (fun g =>
      (readAt losses i).bind (fun l => some (a.1 + g, a.2 + l)))) (0, 0)).bind
    (fun sums =>
      some { avg_gain := sums.1 / (period : ℚ), avg_loss := sums.2 / (period : ℚ), rsi := rsi })

/-- The body of the smoothing loop of `calculateRSI` with checked reads and writes. -/
def rsiStepChecked (gains losses : List ℚ) (period : Int) (s : RSIState) (i : Nat) :
    Option RSIState :=
  if toSizeT ((i : Int) - 1) < gains.length then
    (readAt gains (toSizeT ((i : Int) - 1))).bind (fun g =>
    (readAt losses (toSizeT ((i : Int) - 1))).bind (fun l =>
      let avg_gain := (s.avg_gain * ((period - 1 : Int) : ℚ) + g) / (period : ℚ)
      let avg_loss := (s.avg_loss * ((period - 1 : Int) : ℚ) + l) / (period : ℚ)
      if avg_loss = 0 then
        (writeAt s.rsi i 100).bind (fun rsi =>
          some { avg_gain := avg_gain, avg_loss := avg_loss, rsi := rsi })
      else
        (writeAt s.rsi i (100 - 100 / (1 + avg_gain / avg_loss))).bind (fun rsi =>
          some { avg_gain := avg_gain, avg_loss := avg_loss, rsi := rsi })))
  else some s

/-- `calculateRSI` with checked reads and writes. -/
def calculateRSIChecked (prices : List ℚ) (period : Int) : Option (List ℚ) :=
  let rsi := List.replicate prices.length (50 : ℚ)
  if prices.length ≤ toSizeT period then some rsi
  else
    (rsiGainsChecked prices).bind (fun gains =>
    (rsiLossesChecked prices).bind (fun losses =>
    (rsiSeedChecked gains losses period rsi).bind (fun seed =>
    (forLoopChecked (toSizeT period) prices.length (rsiStepChecked gains losses period)
      seed).bind (fun s => some s.rsi))))

/-- `calculateMACD` with checked reads and writes. -/
def calculateMACDChecked (prices : List ℚ) (fast_period slow_period signal_period : Int) :
    Option MACDResult :=
  (calculateEMAChecked prices fast_period).bind (fun ema_fast =>
  (calculateEMAChecked prices slow_period).bind (fun ema_slow =>
  (forLoopChecked 0 prices.length
    (fun macd i => (readAt ema_fast i).bind (fun a =>
      (readAt ema_slow i).bind (fun b => writeAt macd i (a - b))))
    (List.replicate prices.length (0 : ℚ))).bind (fun macd =>
  (calculateEMAChecked macd signal_period).bind (fun signal =>
  (forLoopChecked 0 prices.length
    (fun histogram i => (readAt macd i).bind (fun a =>
      (readAt signal i).bind (fun b => writeAt histogram i (a - b))))
    (List.replicate prices.length (0 : ℚ))).bind (fun histogram =>
  some { macd := macd, signal := signal, histogram := histogram })))))

/-- The inner loop `windowVariance` with checked reads. -/
def windowVarianceChecked (prices : List ℚ) (period : Int) (i : Nat) (sma : ℚ) : Option ℚ :=
  forLoopChecked 0 period.toNat
    (fun variance j => (readAt prices (toSizeT ((i : Int) - (j : Int)))).bind
      (fun x => some (variance + (x - sma) ^ 2))) 0

/-- `calculateBollingerBands` with checked reads and writes. -/
def calculateBollingerBandsChecked (sqrt : ℚ → ℚ) (prices : List ℚ) (period : Int)
    (std_dev : ℚ) : Option (List ℚ) :=
  forLoopChecked (toSizeT (period - 1)) prices.length
    (fun bb_lower i => (windowSumChecked prices period i).bind (fun sum =>
      (windowVarianceChecked prices period i (sum / (period : ℚ))).bind (fun variance =>
        writeAt bb_lower i
          (sum / (period : ℚ) - sqrt (variance / (period : ℚ)) * std_dev))))
    (List.replicate prices.length (0 : ℚ))

/-- The portfolio right after the BUY at `81` of the run on `tradeBars` from an initial
cash of `100000` (with an empty log): `cash = 10000`, `shares = 90000 / 81`. -/
def holdingState : AdvancedTradingStrategy :=
  { cash := 10000, shares := 10000 / 9, initial_capital := 100000, trade_history := [],
    entry_price := 81, consecutive_losses := 0 }

/-! ## Doubles with overflow

The exact reading of `double` as `ℚ` has no overflow, no infinity and no NaN. The
definitions below follow `calculateEMA` and `calculateRSI` once more over `Dbl`, a
`double` read exactly as long as it is finite and following IEEE 754 at and beyond the
overflow threshold (rounding of finite results is still not modelled). -/

/-- A `double`: a finite value (read exactly), `+inf`, `-inf` or NaN. -/
inductive Dbl where
  | fin (q : ℚ)
  | posInf
  | negInf
  | nan
deriving DecidableEq

/-- The overflow threshold of round-to-nearest: a finite result of magnitude at least
`2^1024 - 2^970` becomes an infinity. -/
def dblOverflow : ℚ := 2 ^ 1024 - 2 ^ 970

/-- The `double` that the exact result `q` of an operation on finite operands becomes. -/
def Dbl.ofExact (q : ℚ) : Dbl :=
  if q ≥ dblOverflow then Dbl.posInf
  else if q ≤ -dblOverflow then Dbl.negInf
  else Dbl.fin q

/-- Unary minus on `double`. -/
def Dbl.neg : Dbl → Dbl
  | Dbl.fin q => Dbl.fin (-q)
  | Dbl.posInf => Dbl.negInf
  | Dbl.negInf => Dbl.posInf
  | Dbl.nan => Dbl.nan

/-- Addition on `double`: `inf + (-inf)` is NaN. -/
def Dbl.add : Dbl → Dbl → Dbl
  | Dbl.nan, _ => Dbl.nan
  | _, Dbl.nan => Dbl.nan
  | Dbl.fin a, Dbl.fin b => Dbl.ofExact (a + b)
  | Dbl.posInf, Dbl.negInf => Dbl.nan
  | Dbl.negInf, Dbl.posInf => Dbl.nan
  | Dbl.posInf, _ => Dbl.posInf
  | _, Dbl.posInf => Dbl.posInf
  | Dbl.negInf, _ => Dbl.negInf
  | _, Dbl.negInf => Dbl.negInf

/-- Subtraction on `double`. -/
def Dbl.sub (a b : Dbl) : Dbl :=
  Dbl.add a (Dbl.neg b)

/-- An infinity of the sign of `q`, NaN for `q = 0` (the product `inf * q`). -/
def Dbl.infTimes (q : ℚ) : Dbl :=
  if q = 0 then Dbl.nan else if q > 0 then Dbl.posInf else Dbl.negInf

/-- Multiplication on `double`: `inf * 0` is NaN. -/
def Dbl.mul : Dbl → Dbl → Dbl
  | Dbl.nan, _ => Dbl.nan
  | _, Dbl.nan => Dbl.nan
  | Dbl.fin a, Dbl.fin b => Dbl.ofExact (a * b)
  | Dbl.posInf, Dbl.fin b => Dbl.infTimes b
  | Dbl.negInf, Dbl.fin b => Dbl.infTimes (-b)
  | Dbl.fin a, Dbl.posInf => Dbl.infTimes a
  | Dbl.fin a, Dbl.negInf => Dbl.infTimes (-a)
  | Dbl.posInf, Dbl.posInf => Dbl.posInf
  | Dbl.negInf, Dbl.negInf => Dbl.posInf
  | Dbl.posInf, Dbl.negInf => Dbl.negInf
  | Dbl.negInf, Dbl.posInf => Dbl.negInf

/-- Division on `double`. A zero divisor is read as `+0.0` (the zero divisors of
`calculateEMA` and `calculateRSI` come from an `int`): `0 / 0` is NaN and `a / 0` an
infinity of the sign of `a`; `inf / inf` is NaN; a finite value over an infinity is `0`. -/
def Dbl.div : Dbl → Dbl → Dbl
  | Dbl.nan, _ => Dbl.nan
  | _, Dbl.nan => Dbl.nan
  | Dbl.fin a, Dbl.fin b =>
    if b = 0 then Dbl.infTimes a else Dbl.ofExact (a / b)
  | Dbl.fin _, Dbl.posInf => Dbl.fin 0
  | Dbl.fin _, Dbl.negInf => Dbl.fin 0
  | Dbl.posInf, Dbl.fin b => if b ≥ 0 then Dbl.posInf else Dbl.negInf
  | Dbl.negInf, Dbl.fin b => if b ≥ 0 then Dbl.negInf else Dbl.posInf
  | Dbl.posInf, Dbl.posInf => Dbl.nan
  | Dbl.posInf, Dbl.negInf => Dbl.nan
  | Dbl.negInf, Dbl.posInf => Dbl.nan
  | Dbl.negInf, Dbl.negInf => Dbl.nan

/-- The comparison `a < b` on `double`: false when an operand is NaN. -/
def Dbl.lt : Dbl → Dbl → Bool
  | Dbl.nan, _ => false
  | _, Dbl.nan => false
  | Dbl.fin a, Dbl.fin b => decide (a < b)
  | Dbl.negInf, Dbl.negInf => false
  | Dbl.negInf, _ => true
  | _, Dbl.negInf => false
  | Dbl.posInf, _ => false
  | _, Dbl.posInf => true

/-- The comparison `a == 0` on `double`. -/
def Dbl.isZero : Dbl → Bool
  | Dbl.fin q => decide (q = 0)
  | _ => false

/-- A `double` that lies in the closed interval `[lo, hi]`: finite and between the
bounds. Infinities and NaN lie in no interval. -/
def Dbl.within (lo hi : ℚ) : Dbl → Prop
  | Dbl.fin q => lo ≤ q ∧ q ≤ hi
  | _ => False

/-- The conversion of an `int` value to `double` (exact). -/
def Dbl.ofInt (z : Int) : Dbl :=
  Dbl.fin (z : ℚ)

/-- `TechnicalIndicators::calculateEMA` (lines 52-64) over `Dbl`. -/
def calculateEMADbl (prices : List Dbl) (period : Int) : List Dbl :=
  let ema := List.replicate prices.length (Dbl.fin 0)
  if prices.isEmpty then ema
  else
    let multiplier : Dbl := Dbl.div (Dbl.fin 2) (Dbl.ofInt (toInt32 (period + 1)))
    let ema := ema.set 0 (prices.getD 0 (Dbl.fin 0))
    forLoop 1 prices.length
      (fun ema i => ema.set i
        (Dbl.add (Dbl.mul (prices.getD i (Dbl.fin 0)) multiplier)
          (Dbl.mul (ema.getD (i - 1) (Dbl.fin 0)) (Dbl.sub (Dbl.fin 1) multiplier))))
      ema

/-- The vector `gains` of `calculateRSI` (lines 70-75) over `Dbl`. -/
def rsiGainsDbl (prices : List Dbl) : List Dbl :=
  forLoop 1 prices.length
    (fun gains i =>
      let change := Dbl.sub (prices.getD i (Dbl.fin 0)) (prices.getD (i - 1) (Dbl.fin 0))
      gains ++ [if Dbl.lt (Dbl.fin 0) change then change else Dbl.fin 0]) []

/-- The vector `losses` of `calculateRSI` (lines 70-75) over `Dbl`. -/
def rsiLossesDbl (prices : List Dbl) : List Dbl :=
  forLoop 1 prices.length
    (fun losses i =>
      let change := Dbl.sub (prices.getD i (Dbl.fin 0)) (prices.getD (i - 1) (Dbl.fin 0))
      losses ++ [if Dbl.lt change (Dbl.fin 0) then Dbl.neg change else Dbl.fin 0]) []

/-- The loop state of the smoothing loop of `calculateRSI` over `Dbl`. -/
structure RSIStateDbl where
  avg_gain : Dbl
  avg_loss : Dbl
  rsi : List Dbl

/-- The seed of the smoothing loop of `calculateRSI` (lines 77-83) over `Dbl`. -/
def rsiSeedDbl (gains losses : List Dbl) (period : Int) (rsi : List Dbl) : RSIStateDbl :=
  let sums := forLoop 0 period.toNat
    (fun (a : Dbl × Dbl) i =>
      (Dbl.add a.1 (gains.getD i (Dbl.fin 0)), Dbl.add a.2 (losses.getD i (Dbl.fin 0))))
    (Dbl.fin 0, Dbl.fin 0)
  { avg_gain := Dbl.div sums.1 (Dbl.ofInt period), avg_loss := Dbl.div sums.2 (Dbl.ofInt period),
    rsi := rsi }

/-- The body of the smoothing loop of `calculateRSI` (lines 86-95) over `Dbl`. -/
def rsiStepDbl (gains losses : List Dbl) (period : Int) (s : RSIStateDbl) (i : Nat) :
    RSIStateDbl :=
  if toSizeT ((i : Int) - 1) < gains.length then
    let avg_gain :=
      Dbl.div (Dbl.add (Dbl.mul s.avg_gain (Dbl.ofInt (period - 1)))
        (gains.getD (toSizeT ((i : Int) - 1)) (Dbl.fin 0))) (Dbl.ofInt period)
    let avg_loss :=
      Dbl.div (Dbl.add (Dbl.mul s.avg_loss (Dbl.ofInt (period - 1)))
        (losses.getD (toSizeT ((i : Int) - 1)) (Dbl.fin 0))) (Dbl.ofInt period)
    if Dbl.isZero avg_loss then
      { avg_gain := avg_gain, avg_loss := avg_loss, rsi := s.rsi.set i (Dbl.fin 100) }
    else
      { avg_gain := avg_gain, avg_loss := avg_loss,
        rsi := s.rsi.set i
          (Dbl.sub (Dbl.fin 100)
            (Dbl.div (Dbl.fin 100) (Dbl.add (Dbl.fin 1) (Dbl.div avg_gain avg_loss)))) }
  else s

/-- `TechnicalIndicators::calculateRSI` (lines 66-99) over `Dbl`. -/
def calculateRSIDbl (prices : List Dbl) (period : Int) : List Dbl :=
  let rsi := List.replicate prices.length (Dbl.fin 50)
  if prices.length ≤ toSizeT period then rsi
  else
    let gains := rsiGainsDbl prices
    let losses := rsiLossesDbl prices
    (forLoop (toSizeT period) prices.length (rsiStepDbl gains losses period)
      (rsiSeedDbl gains losses period rsi)).rsi

/-! ## Theorems -/

theorem forLoop_zero {σ : Type} (a : Nat) (body : σ → Nat → σ) (init : σ) :
    forLoop a a body init = init := by
  simp [forLoop]

theorem forLoop_succ {σ : Type} (a b : Nat) (hab : a ≤ b) (body : σ → Nat → σ) (init : σ) :
    forLoop a (b + 1) body init = body (forLoop a b body init) b := by
  unfold forLoop
  have h : b + 1 - a = (b - a) + 1 := by omega
  rw [h, List.range'_1_concat, List.foldl_append]
  simp
  congr 1
  omega

theorem forLoop_empty {σ : Type} (a b : Nat) (hab : b ≤ a) (body : σ → Nat → σ) (init : σ) :
    forLoop a b body init = init := by
  unfold forLoop
  have h : b - a = 0 := by omega
  rw [h]; rfl

theorem forLoop_sum (h : Nat → ℚ) (n : Nat) :
    forLoop 0 n (fun s j => s + h j) 0 = ∑ j in Finset.range n, h j := by
  induction n with
  | zero => simp [forLoop_zero]
  | succ n ih => rw [forLoop_succ 0 n (Nat.zero_le n), ih, Finset.sum_range_succ]

theorem forLoop_set_length (f : List ℚ → Nat → ℚ) (a b : Nat) (init : List ℚ) :
    (forLoop a b (fun acc i => acc.set i (f acc i)) init).length = init.length := by
  induction b with
  | zero => rw [forLoop_empty a 0 (Nat.zero_le a)]
  | succ b ih =>
    by_cases hab : a ≤ b
    · rw [forLoop_succ a b hab, List.length_set, ih]
    · rw [forLoop_empty a (b + 1) (by omega)]

theorem forLoop_set_getElem? (f : Nat → ℚ) (a b : Nat) (init : List ℚ) (j : Nat) :
    (forLoop a b (fun acc i => acc.set i (f i)) init)[j]? =
      if a ≤ j ∧ j < b ∧ j < init.length then some (f j) else init[j]? := by
  induction b with
  | zero => rw [forLoop_empty a 0 (Nat.zero_le a)]; simp
  | succ b ih =>
    by_cases hab : a ≤ b
    · rw [forLoop_succ a b hab, List.getElem?_set, ih]
      have hl := forLoop_set_length (fun _ i => f i) a b init
      simp only [hl]
      by_cases hbj : b = j
      · subst hbj
        by_cases hlen : b < init.length
        · simp [hlen, hab]
        · simp [hlen]
          omega
      · simp only [hbj, if_false]
        by_cases hc : a ≤ j ∧ j < b ∧ j < init.length
        · rw [if_pos hc, if_pos ⟨hc.1, by omega, hc.2.2⟩]
        · rw [if_neg hc, if_neg (by omega)]
    · rw [forLoop_empty a (b + 1) (by omega)]
      rw [if_neg (by omega)]

theorem toSizeT_of_nonneg (z : Int) (hz : 0 ≤ z) : toSizeT z = z.toNat := by
  unfold toSizeT
  rw [if_neg (by omega)]

theorem toSizeT_natCast (n : Nat) : toSizeT (n : Int) = n := by
  rw [toSizeT_of_nonneg _ (by omega)]; simp

theorem toSizeT_sub (i j : Nat) (h : j ≤ i) : toSizeT ((i : Int) - (j : Int)) = i - j := by
  rw [toSizeT_of_nonneg _ (by omega)]; omega

theorem windowSum_eq (P : List ℚ) (p i : Nat) (hi : p ≤ i + 1) :
    windowSum P (p : Int) i = ∑ j in Finset.range p, P.getD (i + 1 - p + j) 0 := by
  unfold windowSum
  rw [Int.toNat_natCast, forLoop_sum, ← Finset.sum_range_reflect]
  apply Finset.sum_congr rfl
  intro j hj
  rw [Finset.mem_range] at hj
  rw [toSizeT_sub i (p - 1 - j) (by omega)]
  congr 1
  omega

theorem toSizeT_pred (p : Nat) (hp : 1 ≤ p) : toSizeT ((p : Int) - 1) = p - 1 := by
  rw [toSizeT_of_nonneg _ (by omega)]; omega

theorem calculateSMA_getElem? (P : List ℚ) (p : Nat) (hp : 1 ≤ p) (i : Nat)
    (h1 : p - 1 ≤ i) (h2 : i < P.length) :
    (calculateSMA P (p : Int))[i]? = some (windowMean P p i) := by
  unfold calculateSMA
  simp only [toSizeT_natCast, toSizeT_pred p hp]
  rw [if_neg (by omega), forLoop_set_getElem?, if_pos ⟨h1, h2, by simpa using h2⟩,
    windowSum_eq P p i (by omega)]
  simp [windowMean]

/-- C1: for every period `p ≥ 1` and price list `P` with `len(P) ≥ p`, `calculateSMA`
returns a list as long as `P` whose entry `i` is the arithmetic mean of
`P[i-p+1], ..., P[i]` for `p - 1 ≤ i < len(P)` and is `0` for `i < p - 1`. -/
theorem calculateSMA_spec (P : List ℚ) (p : Nat) (hp : 1 ≤ p) (hlen : p ≤ P.length) :
    (calculateSMA P (p : Int)).length = P.length ∧
    (∀ i, p - 1 ≤ i → i < P.length →
      (calculateSMA P (p : Int))[i]? = some (windowMean P p i)) ∧
    (∀ i, i < p - 1 → (calculateSMA P (p : Int))[i]? = some 0) := by
  refine ⟨?_, fun i h1 h2 => calculateSMA_getElem? P p hp i h1 h2, ?_⟩
  · unfold calculateSMA
    simp only [toSizeT_natCast]
    rw [if_neg (by omega),
      forLoop_set_length (fun _ i => windowSum P (p : Int) i / ((p : Int) : ℚ))]
    simp
  · intro i h1
    unfold calculateSMA
    simp only [toSizeT_natCast, toSizeT_pred p hp]
    rw [if_neg (by omega), forLoop_set_getElem?, if_neg (by omega)]
    simp [List.getElem?_replicate]
    omega

/-- Witness for C1: prices `1, 2, 3, 4, 5` with period `2`. -/
theorem calculateSMA_spec_witness :
    1 ≤ 2 ∧ 2 ≤ ([1, 2, 3, 4, 5] : List ℚ).length ∧
    (calculateSMA [1, 2, 3, 4, 5] ((2 : Nat) : Int)).length = ([1, 2, 3, 4, 5] : List ℚ).length ∧
    (∀ i, 2 - 1 ≤ i → i < ([1, 2, 3, 4, 5] : List ℚ).length →
      (calculateSMA [1, 2, 3, 4, 5] ((2 : Nat) : Int))[i]? =
        some (windowMean [1, 2, 3, 4, 5] 2 i)) ∧
    (∀ i, i < 2 - 1 → (calculateSMA [1, 2, 3, 4, 5] ((2 : Nat) : Int))[i]? = some 0) :=
  ⟨by decide, by decide, calculateSMA_spec [1, 2, 3, 4, 5] 2 (by decide) (by decide)⟩

theorem getD_set_ne (l : List ℚ) (i j : Nat) (x : ℚ) (h : i ≠ j) :
    (l.set i x).getD j 0 = l.getD j 0 := by
  rw [List.getD_eq_getElem?_getD, List.getD_eq_getElem?_getD, List.getElem?_set_ne h]

theorem ema_loop_inv (P : List ℚ) (m : ℚ) (hne : 0 < P.length) (b : Nat) :
    let E := forLoop 1 b
      (fun ema i => ema.set i (P.getD i 0 * m + ema.getD (i - 1) 0 * (1 - m)))
      ((List.replicate P.length (0 : ℚ)).set 0 (P.getD 0 0))
    E.length = P.length ∧ E[0]? = some (P.getD 0 0) ∧
      ∀ i, 1 ≤ i → i < b → i < P.length →
        E[i]? = some (P.getD i 0 * m + E.getD (i - 1) 0 * (1 - m)) := by
  induction b with
  | zero =>
    rw [forLoop_empty 1 0 (by omega)]
    refine ⟨by simp, ?_, ?_⟩
    · rw [List.getElem?_set_self (by simpa using hne)]
    · intro i h1 h2; omega
  | succ b ih =>
    by_cases hb : 1 ≤ b
    · rw [forLoop_succ 1 b hb]
      obtain ⟨hl, h0, hrec⟩ := ih
      refine ⟨by rw [List.length_set]; exact hl, ?_, ?_⟩
      · rw [List.getElem?_set_ne (by omega)]; exact h0
      · intro i h1 h2 h3
        by_cases hib : i = b
        · subst hib
          rw [List.getElem?_set_self (by rw [hl]; exact h3), getD_set_ne _ _ _ _ (by omega)]
        · rw [List.getElem?_set_ne (by omega), getD_set_ne _ _ _ _ (by omega)]
          exact hrec i h1 (by omega) h3
    · have hb0 : b = 0 := by omega
      subst hb0
      rw [forLoop_empty 1 1 (by omega)]
      refine ⟨by simp, ?_, ?_⟩
      · rw [List.getElem?_set_self (by simpa using hne)]
      · intro i h1 h2; omega

theorem toInt32_of_range (z : Int) (hlo : -2147483648 ≤ z) (hhi : z < 2147483648) :
    toInt32 z = z := by
  unfold toInt32
  omega

/-- C2 (counterexample): at `period = INT_MAX` the sum `period + 1` wraps to `-2^31`, so
with prices `0, 2147483648` the entry at index 1 is `-2`, not the value `2` of the
recurrence with `k = 2 / (period + 1)`; at `period = -1` the multiplier is `2 / 0 = +inf`
and, with prices `1, 2, 3`, every entry after the first is NaN. -/
theorem calculateEMA_period_counterexample :
    ((calculateEMA [0, 2147483648] 2147483647)[1]? = some (-2 : ℚ) ∧
      (calculateEMA [0, 2147483648] 2147483647)[1]? ≠
        some (([0, 2147483648] : List ℚ).getD 1 0 * (2 / (((2147483647 : Int) + 1 : Int) : ℚ)) +
          (calculateEMA [0, 2147483648] 2147483647).getD (1 - 1) 0 *
            (1 - 2 / (((2147483647 : Int) + 1 : Int) : ℚ)))) ∧
    calculateEMADbl [Dbl.fin 1, Dbl.fin 2, Dbl.fin 3] (-1) =
      [Dbl.fin 1, Dbl.nan, Dbl.nan] := by
  decide!

/-- C2 (amended): for every non-empty price list `P` and every period, `calculateEMA`
returns a list as long as `P` with `result[0] = P[0]`; and for every `int` period other
than `-1` and `INT_MAX = 2147483647`, for every `1 ≤ i < len(P)`,
`result[i] = P[i] * k + result[i-1] * (1 - k)` where `k = 2 / (period + 1)`.
(The hypothesis `period ≠ -1` keeps the statement to periods where `k` is defined.) -/
theorem calculateEMA_spec (P : List ℚ) (period : Int) (hne : P ≠ []) :
    (calculateEMA P period).length = P.length ∧
    (calculateEMA P period)[0]? = P[0]? ∧
    (-2147483648 ≤ period → period < 2147483647 → period ≠ -1 →
      ∀ i, 1 ≤ i → i < P.length →
        (calculateEMA P period)[i]? =
          some (P.getD i 0 * (2 / ((period + 1 : Int) : ℚ)) +
            (calculateEMA P period).getD (i - 1) 0 * (1 - 2 / ((period + 1 : Int) : ℚ)))) := by
  have hpos : 0 < P.length := List.length_pos.mpr hne
  have hemp : P.isEmpty = false := by
    cases P with
    | nil => exact absurd rfl hne
    | cons a t => rfl
  have h := ema_loop_inv P (2 / ((toInt32 (period + 1) : Int) : ℚ)) hpos P.length
  unfold calculateEMA
  simp only [hemp, Bool.false_eq_true, if_false]
  obtain ⟨hl, h0, hrec⟩ := h
  refine ⟨hl, ?_, ?_⟩
  · rw [h0, List.getD_eq_getElem?_getD, List.getElem?_eq_getElem hpos]
    rfl
  · intro hlo hhi _hz i h1 h2
    have hw : toInt32 (period + 1) = period + 1 :=
      toInt32_of_range (period + 1) (by omega) (by omega)
    have hi := hrec i h1 h2 h2
    rw [hw] at hi ⊢
    exact hi

/-- Witness for C2 (amended): prices `1, 2, 3` with period `3`. -/
theorem calculateEMA_spec_witness :
    ([1, 2, 3] : List ℚ) ≠ [] ∧
    ((-2147483648 : Int) ≤ 3 ∧ (3 : Int) < 2147483647 ∧ (3 : Int) ≠ -1) ∧
    (calculateEMA [1, 2, 3] 3).length = ([1, 2, 3] : List ℚ).length ∧
    (calculateEMA [1, 2, 3] 3)[0]? = ([1, 2, 3] : List ℚ)[0]? ∧
    ∀ i, 1 ≤ i → i < ([1, 2, 3] : List ℚ).length →
      (calculateEMA [1, 2, 3] 3)[i]? =
        some (([1, 2, 3] : List ℚ).getD i 0 * (2 / (((3 : Int) + 1 : Int) : ℚ)) +
          (calculateEMA [1, 2, 3] 3).getD (i - 1) 0 * (1 - 2 / (((3 : Int) + 1 : Int) : ℚ))) :=
  ⟨by decide, ⟨by decide, by decide, by decide⟩,
    (calculateEMA_spec [1, 2, 3] 3 (by decide)).1,
    (calculateEMA_spec [1, 2, 3] 3 (by decide)).2.1,
    (calculateEMA_spec [1, 2, 3] 3 (by decide)).2.2 (by decide) (by decide) (by decide)⟩

theorem forLoop_induction {σ : Type} (Inv : σ → Prop) (a b : Nat) (body : σ → Nat → σ)
    (init : σ) (h0 : Inv init)
    (hstep : ∀ s i, a ≤ i → i < b → Inv s → Inv (body s i)) :
    Inv (forLoop a b body init) := by
  induction b with
  | zero => rw [forLoop_empty a 0 (Nat.zero_le a)]; exact h0
  | succ b ih =>
    by_cases hab : a ≤ b
    · rw [forLoop_succ a b hab]
      exact hstep _ b hab (Nat.lt_succ_self b)
        (ih (fun s i h1 h2 hs => hstep s i h1 (Nat.lt_succ_of_lt h2) hs))
    · rw [forLoop_empty a (b + 1) (by omega)]; exact h0

theorem getD_nonneg (l : List ℚ) (h : ∀ x ∈ l, 0 ≤ x) (k : Nat) : 0 ≤ l.getD k 0 := by
  rw [List.getD_eq_getElem?_getD]
  cases hk : l[k]? with
  | none => simp
  | some x => exact h x (List.getElem?_mem hk)

theorem rsiGains_nonneg (P : List ℚ) : ∀ x ∈ rsiGains P, 0 ≤ x := by
  unfold rsiGains
  apply forLoop_induction (fun l : List ℚ => ∀ x ∈ l, 0 ≤ x)
  · intro x hx; simp at hx
  · intro s i _ _ hs x hx
    rw [List.mem_append, List.mem_singleton] at hx
    rcases hx with hx | hx
    · exact hs x hx
    · rw [hx]; split_ifs with hc
      · exact le_of_lt hc
      · exact le_refl 0

theorem rsiLosses_nonneg (P : List ℚ) : ∀ x ∈ rsiLosses P, 0 ≤ x := by
  unfold rsiLosses
  apply forLoop_induction (fun l : List ℚ => ∀ x ∈ l, 0 ≤ x)
  · intro x hx; simp at hx
  · intro s i _ _ hs x hx
    rw [List.mem_append, List.mem_singleton] at hx
    rcases hx with hx | hx
    · exact hs x hx
    · rw [hx]; split_ifs with hc
      · linarith
      · exact le_refl 0

theorem rsi_value_bounds (g l : ℚ) (hg : 0 ≤ g) (hl : 0 < l) :
    0 ≤ 100 - 100 / (1 + g / l) ∧ 100 - 100 / (1 + g / l) ≤ 100 := by
  have h1 : 1 ≤ 1 + g / l := by
    have : 0 ≤ g / l := div_nonneg hg (le_of_lt hl)
    linarith
  have hpos : 0 < 1 + g / l := by linarith
  constructor
  · have : 100 / (1 + g / l) ≤ 100 := by
      rw [div_le_iff₀ hpos]; nlinarith
    linarith
  · have : 0 ≤ 100 / (1 + g / l) := div_nonneg (by norm_num) (le_of_lt hpos)
    linarith

theorem rsiSeed_inv (gains losses : List ℚ) (period : Int) (hp : 1 ≤ period) (rsi : List ℚ)
    (hg : ∀ x ∈ gains, 0 ≤ x) (hl : ∀ x ∈ losses, 0 ≤ x)
    (hr : ∀ x ∈ rsi, 0 ≤ x ∧ x ≤ 100) : RSIInv (rsiSeed gains losses period rsi) := by
  have hpq : (0 : ℚ) < (period : ℚ) := by exact_mod_cast (by omega : (0 : Int) < period)
  have hs : (fun a : ℚ × ℚ => 0 ≤ a.1 ∧ 0 ≤ a.2)
      (forLoop 0 period.toNat
        (fun (a : ℚ × ℚ) i => (a.1 + gains.getD i 0, a.2 + losses.getD i 0)) (0, 0)) := by
    apply forLoop_induction (fun a : ℚ × ℚ => 0 ≤ a.1 ∧ 0 ≤ a.2)
    · exact ⟨le_refl _, le_refl _⟩
    · intro s i _ _ hs
      exact ⟨add_nonneg hs.1 (getD_nonneg gains hg i), add_nonneg hs.2 (getD_nonneg losses hl i)⟩
  exact ⟨div_nonneg hs.1 (le_of_lt hpq), div_nonneg hs.2 (le_of_lt hpq), hr⟩

theorem rsiStep_inv (gains losses : List ℚ) (period : Int) (hp : 1 ≤ period)
    (hg : ∀ x ∈ gains, 0 ≤ x) (hl : ∀ x ∈ losses, 0 ≤ x) (s : RSIState) (i : Nat)
    (hs : RSIInv s) : RSIInv (rsiStep gains losses period s i) := by
  have hpq : (0 : ℚ) < (period : ℚ) := by exact_mod_cast (by omega : (0 : Int) < period)
  have hp1 : (0 : ℚ) ≤ ((period - 1 : Int) : ℚ) := by exact_mod_cast (by omega : (0 : Int) ≤ period - 1)
  obtain ⟨h1, h2, h3⟩ := hs
  have ha : 0 ≤ (s.avg_gain * ((period - 1 : Int) : ℚ) +
      gains.getD (toSizeT ((i : Int) - 1)) 0) / (period : ℚ) :=
    div_nonneg (add_nonneg (mul_nonneg h1 hp1) (getD_nonneg gains hg _)) (le_of_lt hpq)
  have hb : 0 ≤ (s.avg_loss * ((period - 1 : Int) : ℚ) +
      losses.getD (toSizeT ((i : Int) - 1)) 0) / (period : ℚ) :=
    div_nonneg (add_nonneg (mul_nonneg h2 hp1) (getD_nonneg losses hl _)) (le_of_lt hpq)
  unfold rsiStep
  by_cases hc : toSizeT ((i : Int) - 1) < gains.length
  · rw [if_pos hc]
    dsimp only
    by_cases hz : (s.avg_loss * ((period - 1 : Int) : ℚ) +
        losses.getD (toSizeT ((i : Int) - 1)) 0) / (period : ℚ) = 0
    · rw [if_pos hz]
      refine ⟨ha, hb, ?_⟩
      intro x hx
      rcases List.mem_or_eq_of_mem_set hx with hx | hx
      · exact h3 x hx
      · rw [hx]; norm_num
    · rw [if_neg hz]
      refine ⟨ha, hb, ?_⟩
      intro x hx
      rcases List.mem_or_eq_of_mem_set hx with hx | hx
      · exact h3 x hx
      · rw [hx]
        exact rsi_value_bounds _ _ ha (lt_of_le_of_ne hb (Ne.symm hz))
  · rw [if_neg hc]
    exact ⟨h1, h2, h3⟩

/-- C3 (counterexample): over `Dbl`, with the five positive closes
`2^1022, 3 * 2^1022, 2^1022, 3 * 2^1022, 2^1022` and period `4`, the sums of the gains and
of the losses both overflow to `+inf`, the quotient `inf / inf` is NaN, and the entry at
index 4 is NaN, which lies in no interval. -/
theorem calculateRSI_overflow_counterexample :
    (1 : Int) ≤ 4 ∧
    calculateRSIDbl
        [Dbl.fin (2 ^ 1022), Dbl.fin (3 * 2 ^ 1022), Dbl.fin (2 ^ 1022),
          Dbl.fin (3 * 2 ^ 1022), Dbl.fin (2 ^ 1022)] 4 =
      [Dbl.fin 50, Dbl.fin 50, Dbl.fin 50, Dbl.fin 50, Dbl.nan] ∧
    ¬ (∀ x ∈ calculateRSIDbl
        [Dbl.fin (2 ^ 1022), Dbl.fin (3 * 2 ^ 1022), Dbl.fin (2 ^ 1022),
          Dbl.fin (3 * 2 ^ 1022), Dbl.fin (2 ^ 1022)] 4, Dbl.within 0 100 x) := by
  have h : calculateRSIDbl
      [Dbl.fin (2 ^ 1022), Dbl.fin (3 * 2 ^ 1022), Dbl.fin (2 ^ 1022),
        Dbl.fin (3 * 2 ^ 1022), Dbl.fin (2 ^ 1022)] 4 =
      [Dbl.fin 50, Dbl.fin 50, Dbl.fin 50, Dbl.fin 50, Dbl.nan] := by
    decide!
  refine ⟨by decide, h, fun hall => ?_⟩
  rw [h] at hall
  exact hall Dbl.nan (by simp)

/-- C3 (amended): for every price list and every period `≥ 1`, with arithmetic read as
exact (so that no sum overflows), every entry of the result of `calculateRSI` lies in
`[0, 100]`. -/
theorem calculateRSI_bounds (P : List ℚ) (period : Int) (hp : 1 ≤ period) :
    ∀ x ∈ calculateRSI P period, 0 ≤ x ∧ x ≤ 100 := by
  have h50 : ∀ x ∈ List.replicate P.length (50 : ℚ), 0 ≤ x ∧ x ≤ 100 := by
    intro x hx
    rw [List.eq_of_mem_replicate hx]; norm_num
  unfold calculateRSI
  simp only
  split_ifs with hc
  · exact h50
  · have hinv : RSIInv (forLoop (toSizeT period) P.length
        (rsiStep (rsiGains P) (rsiLosses P) period)
        (rsiSeed (rsiGains P) (rsiLosses P) period (List.replicate P.length (50 : ℚ)))) := by
      apply forLoop_induction RSIInv
      · exact rsiSeed_inv _ _ period hp _ (rsiGains_nonneg P) (rsiLosses_nonneg P) h50
      · intro s i _ _ hs
        exact rsiStep_inv _ _ period hp (rsiGains_nonneg P) (rsiLosses_nonneg P) s i hs
    exact hinv.2.2

/-- Witness for C3 (amended): sixteen prices with period `14`. -/
theorem calculateRSI_bounds_witness :
    (1 : Int) ≤ 14 ∧
    ∀ x ∈ calculateRSI [10, 11, 12, 11, 13, 12, 14, 15, 13, 16, 17, 15, 18, 19, 17, 20] 14,
      0 ≤ x ∧ x ≤ 100 :=
  ⟨by decide, calculateRSI_bounds _ 14 (by decide)⟩

/-- C4: for every price list `P` with `len(P) ≤ period`, the result of `calculateRSI`
has the length of `P` and every entry is `50`. -/
theorem calculateRSI_short (P : List ℚ) (p : Nat) (hlen : P.length ≤ p) :
    calculateRSI P (p : Int) = List.replicate P.length (50 : ℚ) := by
  unfold calculateRSI
  simp only [toSizeT_natCast]
  rw [if_pos hlen]

/-- Witness for C4: three prices with period `14`. -/
theorem calculateRSI_short_witness :
    ([1, 2, 3] : List ℚ).length ≤ 14 ∧
    calculateRSI [1, 2, 3] ((14 : Nat) : Int) =
      List.replicate ([1, 2, 3] : List ℚ).length (50 : ℚ) :=
  ⟨by decide, calculateRSI_short [1, 2, 3] 14 (by decide)⟩

theorem forLoop_left {σ : Type} (a b : Nat) (hab : a < b) (body : σ → Nat → σ) (init : σ) :
    forLoop a b body init = forLoop (a + 1) b body (body init a) := by
  unfold forLoop
  have h : b - a = (b - (a + 1)) + 1 := by omega
  rw [h, List.range'_succ, List.foldl_cons]

theorem rsiGains_length (P : List ℚ) : (rsiGains P).length = P.length - 1 := by
  unfold rsiGains
  generalize P.length = n
  induction n with
  | zero => rw [forLoop_empty 1 0 (by omega)]; rfl
  | succ n ih =>
    by_cases hn : 1 ≤ n
    · rw [forLoop_succ 1 n hn, List.length_append, ih]
      simp
      omega
    · rw [forLoop_empty 1 (n + 1) (by omega)]
      simp
      omega

theorem rsiStep_length (gains losses : List ℚ) (period : Int) (s : RSIState) (i : Nat) :
    (rsiStep gains losses period s i).rsi.length = s.rsi.length := by
  unfold rsiStep
  dsimp only
  split_ifs <;> simp

theorem rsiStep_getElem?_ne (gains losses : List ℚ) (period : Int) (s : RSIState) (i j : Nat)
    (h : i ≠ j) : (rsiStep gains losses period s i).rsi[j]? = s.rsi[j]? := by
  unfold rsiStep
  dsimp only
  split_ifs <;> simp [List.getElem?_set_ne h]

theorem rsiLoop_frame (gains losses : List ℚ) (period : Int) (a b : Nat) (s : RSIState)
    (j : Nat) (hj : j < a) :
    (forLoop a b (rsiStep gains losses period) s).rsi[j]? = s.rsi[j]? ∧
    (forLoop a b (rsiStep gains losses period) s).rsi.length = s.rsi.length := by
  apply forLoop_induction
    (fun t : RSIState => t.rsi[j]? = s.rsi[j]? ∧ t.rsi.length = s.rsi.length)
  · exact ⟨rfl, rfl⟩
  · intro t i h1 _ ht
    exact ⟨by rw [rsiStep_getElem?_ne _ _ _ _ _ _ (by omega)]; exact ht.1,
      by rw [rsiStep_length]; exact ht.2⟩

/-- C5 (counterexample): with prices `1, 2` and period `1` the entry at index
`period = 1` is the computed value `100`, not the default `50`. -/
theorem calculateRSI_warmup_counterexample :
    (calculateRSI [1, 2] 1)[1]? = some 100 ∧ (calculateRSI [1, 2] 1)[1]? ≠ some 50 := by
  decide!

/-- C5 (amended): for every price list `P` with `len(P) > period ≥ 1`, the result of
`calculateRSI` has the length of `P`, keeps the default `50` at every index `i < period`,
and holds at index `period` the first computed value: `100` when the first smoothed
average loss is `0`, else `100 - 100 / (1 + gain / loss)` of the first smoothed averages. -/
theorem calculateRSI_warmup (P : List ℚ) (p : Nat) (hp : 1 ≤ p) (hlen : p < P.length) :
    (calculateRSI P (p : Int)).length = P.length ∧
    (∀ i, i < p → (calculateRSI P (p : Int))[i]? = some 50) ∧
    (calculateRSI P (p : Int))[p]? =
      some (if rsiFirstLoss P p = 0 then 100
        else 100 - 100 / (1 + rsiFirstGain P p / rsiFirstLoss P p)) := by
  unfold calculateRSI
  simp only [toSizeT_natCast]
  rw [if_neg (by omega)]
  refine ⟨?_, ?_, ?_⟩
  · rw [forLoop_left p P.length hlen]
    rw [(rsiLoop_frame _ _ _ (p + 1) P.length _ 0 (by omega)).2, rsiStep_length]
    simp [rsiSeed]
  · intro i hi
    rw [(rsiLoop_frame _ _ _ p P.length _ i hi).1]
    simp [rsiSeed, List.getElem?_replicate]
    omega
  · rw [forLoop_left p P.length hlen]
    rw [(rsiLoop_frame _ _ _ (p + 1) P.length _ p (by omega)).1]
    have hsz : toSizeT ((p : Int) - 1) = p - 1 := by
      rw [toSizeT_of_nonneg _ (by omega)]; omega
    have hg : p - 1 < (rsiGains P).length := by rw [rsiGains_length]; omega
    unfold rsiStep
    rw [hsz, if_pos hg]
    have hc : (((p : Int) - 1 : Int) : ℚ) = (p : ℚ) - 1 := by push_cast; ring
    simp only [rsiFirstLoss, rsiFirstGain, rsiSeed, hc, Int.cast_natCast]
    split_ifs <;> simp [hlen]

/-- Witness for C5 (amended): prices `1, 2, 3` with period `1`. -/
theorem calculateRSI_warmup_witness :
    1 ≤ 1 ∧ 1 < ([1, 2, 3] : List ℚ).length ∧
    (calculateRSI [1, 2, 3] ((1 : Nat) : Int)).length = ([1, 2, 3] : List ℚ).length ∧
    (∀ i, i < 1 → (calculateRSI [1, 2, 3] ((1 : Nat) : Int))[i]? = some 50) ∧
    (calculateRSI [1, 2, 3] ((1 : Nat) : Int))[1]? =
      some (if rsiFirstLoss [1, 2, 3] 1 = 0 then 100
        else 100 - 100 / (1 + rsiFirstGain [1, 2, 3] 1 / rsiFirstLoss [1, 2, 3] 1)) :=
  ⟨by decide, by decide, calculateRSI_warmup [1, 2, 3] 1 (by decide) (by decide)⟩

theorem calculateEMA_length (P : List ℚ) (period : Int) :
    (calculateEMA P period).length = P.length := by
  unfold calculateEMA
  dsimp only
  split_ifs
  · simp
  · rw [forLoop_set_length (fun ema i =>
      P.getD i 0 * (2 / ((toInt32 (period + 1) : Int) : ℚ)) +
        ema.getD (i - 1) 0 * (1 - 2 / ((toInt32 (period + 1) : Int) : ℚ)))]
    simp

/-- C6: for every price list `P` and periods, the three sequences returned by
`calculateMACD` have the length of `P`; `macd[i]` is the difference of the fast and the
slow EMA at `i`, `signal` is the EMA of `macd`, and `histogram[i] = macd[i] - signal[i]`. -/
theorem calculateMACD_spec (P : List ℚ) (fast slow signalPeriod : Int) :
    (calculateMACD P fast slow signalPeriod).macd.length = P.length ∧
    (calculateMACD P fast slow signalPeriod).signal.length = P.length ∧
    (calculateMACD P fast slow signalPeriod).histogram.length = P.length ∧
    (∀ i, i < P.length → (calculateMACD P fast slow signalPeriod).macd[i]? =
      some ((calculateEMA P fast).getD i 0 - (calculateEMA P slow).getD i 0)) ∧
    (calculateMACD P fast slow signalPeriod).signal =
      calculateEMA (calculateMACD P fast slow signalPeriod).macd signalPeriod ∧
    (∀ i, i < P.length → (calculateMACD P fast slow signalPeriod).histogram[i]? =
      some ((calculateMACD P fast slow signalPeriod).macd.getD i 0 -
        (calculateMACD P fast slow signalPeriod).signal.getD i 0)) := by
  have hm : (forLoop 0 P.length
      (fun macd i => macd.set i ((calculateEMA P fast).getD i 0 - (calculateEMA P slow).getD i 0))
      (List.replicate P.length (0 : ℚ))).length = P.length := by
    rw [forLoop_set_length
      (fun _ i => (calculateEMA P fast).getD i 0 - (calculateEMA P slow).getD i 0)]
    simp
  unfold calculateMACD
  dsimp only
  refine ⟨hm, ?_, ?_, ?_, rfl, ?_⟩
  · rw [calculateEMA_length, hm]
  · rw [forLoop_set_length (fun _ i => _ - _)]
    simp
  · intro i hi
    rw [forLoop_set_getElem?, if_pos ⟨Nat.zero_le i, hi, by simpa using hi⟩]
  · intro i hi
    rw [forLoop_set_getElem?, if_pos ⟨Nat.zero_le i, hi, by simpa using hi⟩]

theorem windowVariance_eq (P : List ℚ) (p i : Nat) (hi : p ≤ i + 1) (m : ℚ) :
    windowVariance P (p : Int) i m =
      ∑ j in Finset.range p, (P.getD (i + 1 - p + j) 0 - m) ^ 2 := by
  unfold windowVariance
  rw [Int.toNat_natCast, forLoop_sum (fun j => (P.getD (toSizeT ((i : Int) - (j : Int))) 0 - m) ^ 2),
    ← Finset.sum_range_reflect]
  apply Finset.sum_congr rfl
  intro j hj
  rw [Finset.mem_range] at hj
  rw [toSizeT_sub i (p - 1 - j) (by omega)]
  congr 3
  omega

/-- C7: for every price list `P`, period `p ≥ 1` and multiplier `k`, the result of
`calculateBollingerBands` has the length of `P`; for `p - 1 ≤ i < len(P)` its entry is
`m - k * sqrt v` with `m` the window mean (the entry of `calculateSMA` at `i`) and `v`
the population variance of the window; every entry at `i < p - 1` is `0`, and the whole
result is `0` when `len(P) < p`. -/
theorem calculateBollingerBands_spec (sqrt : ℚ → ℚ) (P : List ℚ) (p : Nat) (hp : 1 ≤ p)
    (k : ℚ) :
    (calculateBollingerBands sqrt P (p : Int) k).length = P.length ∧
    (∀ i, p - 1 ≤ i → i < P.length →
      (calculateBollingerBands sqrt P (p : Int) k)[i]? =
        some (windowMean P p i - k * sqrt (windowPopVariance P p i)) ∧
      (calculateSMA P (p : Int))[i]? = some (windowMean P p i)) ∧
    (∀ i, i < p - 1 → i < P.length →
      (calculateBollingerBands sqrt P (p : Int) k)[i]? = some 0) ∧
    (P.length < p → calculateBollingerBands sqrt P (p : Int) k =
      List.replicate P.length (0 : ℚ)) := by
  have hcast : toSizeT ((p : Int) - 1) = p - 1 := by
    rw [toSizeT_of_nonneg _ (by omega)]; omega
  unfold calculateBollingerBands
  simp only [hcast]
  refine ⟨?_, ?_, ?_, ?_⟩
  · rw [forLoop_set_length (fun _ i => _ - _)]
    simp
  · intro i h1 h2
    refine ⟨?_, calculateSMA_getElem? P p hp i h1 h2⟩
    rw [forLoop_set_getElem?, if_pos ⟨h1, h2, by simpa using h2⟩,
      windowVariance_eq P p i (by omega), windowSum_eq P p i (by omega)]
    simp only [windowMean, windowPopVariance, Int.cast_natCast]
    rw [mul_comm]
  · intro i h1 h2
    rw [forLoop_set_getElem?, if_neg (by omega)]
    simp [List.getElem?_replicate, h2]
  · intro h
    rw [forLoop_empty _ _ (by omega)]

/-- Witness for C7: prices `1, 2, 3, 4, 5` with period `2` and multiplier `2`. -/
theorem calculateBollingerBands_spec_witness :
    1 ≤ 2 ∧
    (calculateBollingerBands sqrtApprox [1, 2, 3, 4, 5] ((2 : Nat) : Int) 2).length =
      ([1, 2, 3, 4, 5] : List ℚ).length ∧
    (∀ i, 2 - 1 ≤ i → i < ([1, 2, 3, 4, 5] : List ℚ).length →
      (calculateBollingerBands sqrtApprox [1, 2, 3, 4, 5] ((2 : Nat) : Int) 2)[i]? =
        some (windowMean [1, 2, 3, 4, 5] 2 i -
          2 * sqrtApprox (windowPopVariance [1, 2, 3, 4, 5] 2 i)) ∧
      (calculateSMA [1, 2, 3, 4, 5] ((2 : Nat) : Int))[i]? =
        some (windowMean [1, 2, 3, 4, 5] 2 i)) ∧
    (∀ i, i < 2 - 1 → i < ([1, 2, 3, 4, 5] : List ℚ).length →
      (calculateBollingerBands sqrtApprox [1, 2, 3, 4, 5] ((2 : Nat) : Int) 2)[i]? = some 0) ∧
    (([1, 2, 3, 4, 5] : List ℚ).length < 2 →
      calculateBollingerBands sqrtApprox [1, 2, 3, 4, 5] ((2 : Nat) : Int) 2 =
        List.replicate ([1, 2, 3, 4, 5] : List ℚ).length (0 : ℚ)) :=
  ⟨by decide, calculateBollingerBands_spec sqrtApprox [1, 2, 3, 4, 5] 2 (by decide) 2⟩

/-! ### The indicators on small inputs -/

theorem calculateSMA_example :
    calculateSMA [1, 2, 3, 4, 5] 2 = [0, 3 / 2, 5 / 2, 7 / 2, 9 / 2] := by
  decide!

theorem calculateEMA_example :
    calculateEMA [1, 2, 3, 4, 5] 3 = [1, 3 / 2, 9 / 4, 25 / 8, 65 / 16] := by
  decide!

theorem calculateRSI_example :
    calculateRSI [1, 2, 3, 2, 5, 4, 7] 3 =
      [50, 50, 50, 400 / 9, 700 / 9, 7000 / 117, 38300 / 477] := by
  decide!

theorem calculateBollingerBands_example :
    calculateBollingerBands sqrtApprox [1, 2, 3, 4, 5] 2 2 = [0, 1 / 2, 3 / 2, 5 / 2, 7 / 2] := by
  decide!

theorem calculateRSIDbl_example :
    calculateRSIDbl ([1, 2, 3, 2, 5, 4, 7].map Dbl.fin) 3 =
      ([50, 50, 50, 400 / 9, 700 / 9, 7000 / 117, 38300 / 477] : List ℚ).map Dbl.fin := by
  decide!

theorem calculateEMADbl_example :
    calculateEMADbl ([1, 2, 3, 4, 5].map Dbl.fin) 3 =
      ([1, 3 / 2, 9 / 4, 25 / 8, 65 / 16] : List ℚ).map Dbl.fin ∧
    calculateEMADbl [Dbl.fin 0, Dbl.fin 2147483648] 2147483647 =
      [Dbl.fin 0, Dbl.fin (-2)] := by
  decide!

/-! ### The strategy state machine -/

theorem prices_getD (price_data : List PriceData) (i : Nat) :
    (price_data.map (fun data => data.close)).getD i 0 = (price_data.getD i {}).close := by
  rw [List.getD_eq_getElem?_getD, List.getD_eq_getElem?_getD, List.getElem?_map]
  cases price_data[i]? <;> rfl

theorem executeTrade_sell (st : AdvancedTradingStrategy) (data : PriceData) (reason : String)
    (r m s : ℚ) (h : 0 < st.shares) :
    executeTrade st data "SELL" reason r m s =
      { st with cash := st.cash + st.shares * data.close, shares := 0, entry_price := 0,
                trade_history := st.trade_history ++
                  [{ date := data.date, action := "SELL", price := data.close, rsi := r,
                     macd := m, signal := s,
                     portfolio_value := st.cash + st.shares * data.close + 0 * data.close,
                     reason := reason }] } := by
  unfold executeTrade
  rw [if_neg (fun hc => absurd hc.1 (by decide)), if_pos ⟨rfl, h⟩]

theorem executeTrade_buy (st : AdvancedTradingStrategy) (data : PriceData) (reason : String)
    (r m s : ℚ) (h0 : st.shares = 0) (hc : st.cash > data.close) :
    executeTrade st data "BUY" reason r m s =
      { st with shares := st.cash * position_size_pct / data.close,
                cash := st.cash - st.cash * position_size_pct / data.close * data.close,
                entry_price := data.close,
                trade_history := st.trade_history ++
                  [{ date := data.date, action := "BUY", price := data.close, rsi := r,
                     macd := m, signal := s,
                     portfolio_value :=
                       st.cash - st.cash * position_size_pct / data.close * data.close +
                         st.cash * position_size_pct / data.close * data.close,
                     reason := reason }] } := by
  unfold executeTrade
  rw [if_pos ⟨rfl, h0, hc⟩]

theorem backtestStep_cases (ind : Indicators) (price_data : List PriceData)
    (st : AdvancedTradingStrategy) (i : Nat)
    (hp : ind.prices.getD i 0 = (price_data.getD i {}).close) :
    ∃ e, (backtestStep ind price_data st i).trade_history = st.trade_history ++ [e] ∧
      ((e.action = "SELL" ∧ 0 < st.shares ∧ (backtestStep ind price_data st i).shares = 0 ∧
          (backtestStep ind price_data st i).entry_price = 0) ∨
       (e.action = "BUY" ∧ st.shares = 0 ∧ st.cash > (price_data.getD i {}).close ∧
          (backtestStep ind price_data st i).shares =
            st.cash * position_size_pct / (price_data.getD i {}).close ∧
          (backtestStep ind price_data st i).entry_price = (price_data.getD i {}).close) ∨
       (e.action = "HOLD" ∧ (backtestStep ind price_data st i).shares = st.shares ∧
          (backtestStep ind price_data st i).entry_price = st.entry_price)) := by
  generalize hst : backtestStep ind price_data st i = st'
  unfold backtestStep at hst
  dsimp only at hst
  split_ifs at hst with h1 h2 h3 h4 h5 h6 h7 h8 h9
  · rw [executeTrade_sell _ _ _ _ _ _ (of_decide_eq_true h1).1.1] at hst
    subst hst
    exact ⟨_, rfl, Or.inl ⟨rfl, (of_decide_eq_true h1).1.1, rfl, rfl⟩⟩
  · rw [executeTrade_sell _ _ _ _ _ _ (of_decide_eq_true h2).1.1] at hst
    subst hst
    exact ⟨_, rfl, Or.inl ⟨rfl, (of_decide_eq_true h2).1.1, rfl, rfl⟩⟩
  · rw [executeTrade_buy _ _ _ _ _ _ (of_decide_eq_true h3.1).1 (hp ▸ (of_decide_eq_true h3.1).2.1)] at hst
    subst hst
    exact ⟨_, rfl, Or.inr (Or.inl ⟨rfl, (of_decide_eq_true h3.1).1, hp ▸ (of_decide_eq_true h3.1).2.1, rfl, rfl⟩)⟩
  · rw [executeTrade_buy _ _ _ _ _ _ (of_decide_eq_true h4.1).1 (hp ▸ (of_decide_eq_true h4.1).2.1)] at hst
    subst hst
    exact ⟨_, rfl, Or.inr (Or.inl ⟨rfl, (of_decide_eq_true h4.1).1, hp ▸ (of_decide_eq_true h4.1).2.1, rfl, rfl⟩)⟩
  · rw [executeTrade_buy _ _ _ _ _ _ (of_decide_eq_true h5.1).1 (hp ▸ (of_decide_eq_true h5.1).2.1)] at hst
    subst hst
    exact ⟨_, rfl, Or.inr (Or.inl ⟨rfl, (of_decide_eq_true h5.1).1, hp ▸ (of_decide_eq_true h5.1).2.1, rfl, rfl⟩)⟩
  · rw [executeTrade_buy _ _ _ _ _ _ (of_decide_eq_true h6.1).1 (hp ▸ (of_decide_eq_true h6.1).2.1)] at hst
    subst hst
    exact ⟨_, rfl, Or.inr (Or.inl ⟨rfl, (of_decide_eq_true h6.1).1, hp ▸ (of_decide_eq_true h6.1).2.1, rfl, rfl⟩)⟩
  · rw [executeTrade_sell _ _ _ _ _ _ h7.1] at hst
    subst hst
    exact ⟨_, rfl, Or.inl ⟨rfl, h7.1, rfl, rfl⟩⟩
  · rw [executeTrade_sell _ _ _ _ _ _ h8.1] at hst
    subst hst
    exact ⟨_, rfl, Or.inl ⟨rfl, h8.1, rfl, rfl⟩⟩
  · rw [executeTrade_sell _ _ _ _ _ _ h9.1] at hst
    subst hst
    exact ⟨_, rfl, Or.inl ⟨rfl, h9.1, rfl, rfl⟩⟩
  · subst hst
    exact ⟨_, rfl, Or.inr (Or.inr ⟨rfl, rfl, rfl⟩)⟩

theorem backtestAfter_succ (sqrt : ℚ → ℚ) (st : AdvancedTradingStrategy)
    (price_data : List PriceData) (k : Nat) :
    backtestAfter sqrt st price_data (k + 1) =
      backtestStep (backtestIndicators sqrt price_data) price_data
        (backtestAfter sqrt st price_data k) (50 + k) := by
  unfold backtestAfter
  exact forLoop_succ 50 (50 + k) (Nat.le_add_right 50 k) _ st

theorem backtest_eq_backtestAfter (sqrt : ℚ → ℚ) (st : AdvancedTradingStrategy)
    (price_data : List PriceData) (hlen : 50 ≤ price_data.length) :
    backtest sqrt st price_data =
      (Except.ok (), backtestAfter sqrt st price_data (price_data.length - 50)) := by
  unfold backtest backtestAfter
  rw [if_neg (by omega), Nat.add_sub_cancel' hlen]

theorem close_pos_of_lt (price_data : List PriceData) (hpos : ∀ d ∈ price_data, 0 < d.close)
    (i : Nat) (hi : i < price_data.length) : 0 < (price_data.getD i {}).close := by
  rw [List.getD_eq_getElem?_getD, List.getElem?_eq_getElem hi]
  exact hpos _ (List.getElem_mem hi)

theorem backtestStep_portfolioInv (sqrt : ℚ → ℚ) (price_data : List PriceData)
    (st : AdvancedTradingStrategy) (i : Nat) (hclose : 0 < (price_data.getD i {}).close)
    (hinv : PortfolioInv st) :
    PortfolioInv (backtestStep (backtestIndicators sqrt price_data) price_data st i) := by
  obtain ⟨e, _, hcase⟩ := backtestStep_cases (backtestIndicators sqrt price_data) price_data st i
    (prices_getD price_data i)
  unfold PortfolioInv
  rcases hcase with ⟨_, _, hs, he⟩ | ⟨_, _, hc, hs, he⟩ | ⟨_, hs, he⟩
  · rw [hs, he]; simp
  · have hsh : 0 < st.cash * position_size_pct / (price_data.getD i {}).close := by
      apply div_pos _ hclose
      apply mul_pos (lt_trans hclose hc)
      unfold position_size_pct; norm_num
    rw [hs, he]
    exact ⟨le_of_lt hsh, ⟨fun _ => hclose, fun _ => hsh⟩, fun h => absurd h (ne_of_gt hsh)⟩
  · rw [hs, he]; exact hinv

/-- C8: `backtest` fails exactly when the series has fewer than 50 bars; the failure
leaves the whole strategy state (cash, shares, entry price, loss streak, signal log)
as it was, and a series of at least 50 bars completes without error. -/
theorem backtest_fails_iff_short (sqrt : ℚ → ℚ) (st : AdvancedTradingStrategy)
    (price_data : List PriceData) :
    ((backtest sqrt st price_data).1 = Except.error "Insufficient data for backtesting" ↔
      price_data.length < 50) ∧
    (price_data.length < 50 → (backtest sqrt st price_data).2 = st) ∧
    (50 ≤ price_data.length → (backtest sqrt st price_data).1 = Except.ok ()) := by
  by_cases h : price_data.length < 50
  · have hb : backtest sqrt st price_data =
        (Except.error "Insufficient data for backtesting", st) := by
      unfold backtest; rw [if_pos h]
    rw [hb]
    exact ⟨⟨fun _ => h, fun _ => rfl⟩, fun _ => rfl, fun h2 => absurd h (by omega)⟩
  · rw [backtest_eq_backtestAfter sqrt st price_data (by omega)]
    refine ⟨⟨fun h2 => ?_, fun h2 => absurd h2 h⟩, fun h2 => absurd h2 h, fun _ => rfl⟩
    simp at h2

/-- C9: from the initial state and for a series of at least 50 bars with positive
closes, the state after every processed bar has `shares ≥ 0`, `shares > 0` exactly when
`entry_price > 0`, and `entry_price = 0` whenever `shares = 0`; the state that
`backtest` leaves is the one after the last bar. -/
theorem backtest_portfolio_invariant (sqrt : ℚ → ℚ) (initial_cash : ℚ)
    (price_data : List PriceData) (hlen : 50 ≤ price_data.length)
    (hpos : ∀ d ∈ price_data, 0 < d.close) :
    (∀ k, 50 + k ≤ price_data.length →
      PortfolioInv (backtestAfter sqrt (AdvancedTradingStrategy.new initial_cash) price_data k)) ∧
    (backtest sqrt (AdvancedTradingStrategy.new initial_cash) price_data).2 =
      backtestAfter sqrt (AdvancedTradingStrategy.new initial_cash) price_data
        (price_data.length - 50) := by
  refine ⟨fun k hk => ?_, by rw [backtest_eq_backtestAfter _ _ _ hlen]⟩
  unfold backtestAfter
  apply forLoop_induction PortfolioInv
  · unfold PortfolioInv AdvancedTradingStrategy.new
    simp
  · intro s i _ h2 hs
    exact backtestStep_portfolioInv sqrt price_data s i
      (close_pos_of_lt price_data hpos i (by omega)) hs

theorem risingBars_length : 50 ≤ risingBars.length := by
  simp [risingBars]

theorem risingBars_pos : ∀ d ∈ risingBars, 0 < d.close := by
  intro d hd
  unfold risingBars at hd
  rw [List.mem_map] at hd
  obtain ⟨n, _, rfl⟩ := hd
  show (0 : ℚ) < (n : ℚ) + 100
  positivity

theorem tradeBars_length : 50 ≤ tradeBars.length := by
  decide

theorem tradeBars_pos : ∀ d ∈ tradeBars, 0 < d.close := by
  decide!

/-- Witness for C9: the series `tradeBars`, whose run opens a position with a BUY at `81`
and closes it with a stop-loss SELL at `70`, from an initial cash of `100000`. -/
theorem backtest_portfolio_invariant_witness :
    50 ≤ tradeBars.length ∧ (∀ d ∈ tradeBars, 0 < d.close) ∧
    (∀ k, 50 + k ≤ tradeBars.length →
      PortfolioInv (backtestAfter sqrtApprox (AdvancedTradingStrategy.new 100000)
        tradeBars k)) ∧
    (backtest sqrtApprox (AdvancedTradingStrategy.new 100000) tradeBars).2 =
      backtestAfter sqrtApprox (AdvancedTradingStrategy.new 100000) tradeBars
        (tradeBars.length - 50) :=
  ⟨tradeBars_length, tradeBars_pos,
    backtest_portfolio_invariant sqrtApprox 100000 tradeBars tradeBars_length tradeBars_pos⟩

theorem alternatesFrom_concat (b : Bool) (l : List String) (a : String) :
    alternatesFrom b (l ++ [a]) =
      (alternatesFrom b l && (a == (if nextExpect b l then "BUY" else "SELL"))) ∧
    nextExpect b (l ++ [a]) = !nextExpect b l := by
  induction l generalizing b with
  | nil => simp [alternatesFrom, nextExpect]
  | cons x xs ih =>
    simp only [List.cons_append, alternatesFrom, nextExpect, List.append_eq]
    rw [(ih (!b)).1, (ih (!b)).2, Bool.and_assoc]
    exact ⟨rfl, rfl⟩

theorem tradeActions_concat (log : List TradingSignal) (e : TradingSignal) :
    tradeActions (log ++ [e]) =
      tradeActions log ++ (if e.action = "BUY" ∨ e.action = "SELL" then [e.action] else []) := by
  unfold tradeActions
  rw [List.map_append, List.filter_append]
  congr 1
  by_cases h : e.action = "BUY" ∨ e.action = "SELL"
  · rw [if_pos h]; simp [List.filter, h]
  · rw [if_neg h]; simp [List.filter, h]

theorem backtestStep_logInv (sqrt : ℚ → ℚ) (price_data : List PriceData)
    (st : AdvancedTradingStrategy) (i : Nat) (hclose : 0 < (price_data.getD i {}).close)
    (hinv : LogInv st) :
    LogInv (backtestStep (backtestIndicators sqrt price_data) price_data st i) := by
  obtain ⟨e, hlog, hcase⟩ := backtestStep_cases (backtestIndicators sqrt price_data)
    price_data st i (prices_getD price_data i)
  obtain ⟨halt, hnext, hnn⟩ := hinv
  unfold LogInv
  rw [hlog, tradeActions_concat]
  rcases hcase with ⟨ha, hsh, hs, _⟩ | ⟨ha, hsh, hc, hs, _⟩ | ⟨ha, hs, _⟩
  · have hne : nextExpect true (tradeActions st.trade_history) = false := by
      cases hb : nextExpect true (tradeActions st.trade_history) with
      | false => rfl
      | true => exact absurd (hnext.mp hb) (ne_of_gt hsh)
    rw [if_pos (Or.inr ha), (alternatesFrom_concat _ _ _).1, (alternatesFrom_concat _ _ _).2,
      halt, hne, ha, hs]
    simp
  · have hne : nextExpect true (tradeActions st.trade_history) = true := hnext.mpr hsh
    have hpos : 0 < st.cash * position_size_pct / (price_data.getD i {}).close := by
      apply div_pos _ hclose
      apply mul_pos (lt_trans hclose hc)
      unfold position_size_pct; norm_num
    rw [if_pos (Or.inl ha), (alternatesFrom_concat _ _ _).1, (alternatesFrom_concat _ _ _).2,
      halt, hne, ha, hs]
    refine ⟨by simp, ⟨fun h => by simp at h, fun h => absurd h (ne_of_gt hpos)⟩, le_of_lt hpos⟩
  · rw [if_neg (by rw [ha]; decide), List.append_nil, hs]
    exact ⟨halt, hnext, hnn⟩

/-- C10: from a fresh engine and for a series of at least 50 bars with positive closes,
the BUY and SELL entries of the signal log of `backtest` strictly alternate starting with
a BUY, and a bar that logs a BUY starts from a flat portfolio (`shares = 0`). -/
theorem backtest_no_pyramiding (sqrt : ℚ → ℚ) (initial_cash : ℚ)
    (price_data : List PriceData) (hlen : 50 ≤ price_data.length)
    (hpos : ∀ d ∈ price_data, 0 < d.close) :
    alternatesFrom true (tradeActions
      (backtest sqrt (AdvancedTradingStrategy.new initial_cash) price_data).2.trade_history)
        = true ∧
    (∀ k e, 50 + k < price_data.length →
      (backtestAfter sqrt (AdvancedTradingStrategy.new initial_cash) price_data
          (k + 1)).trade_history =
        (backtestAfter sqrt (AdvancedTradingStrategy.new initial_cash) price_data
          k).trade_history ++ [e] →
      e.action = "BUY" →
      (backtestAfter sqrt (AdvancedTradingStrategy.new initial_cash) price_data k).shares
        = 0) := by
  constructor
  · rw [backtest_eq_backtestAfter _ _ _ hlen]
    have h : LogInv (backtestAfter sqrt (AdvancedTradingStrategy.new initial_cash) price_data
        (price_data.length - 50)) := by
      unfold backtestAfter
      apply forLoop_induction LogInv
      · unfold LogInv AdvancedTradingStrategy.new tradeActions
        simp [alternatesFrom, nextExpect]
      · intro s i _ h2 hs
        exact backtestStep_logInv sqrt price_data s i
          (close_pos_of_lt price_data hpos i (by omega)) hs
    exact h.1
  · intro k e _ hlog hbuy
    rw [backtestAfter_succ] at hlog
    obtain ⟨e0, hlog0, hcase⟩ := backtestStep_cases (backtestIndicators sqrt price_data)
      price_data (backtestAfter sqrt (AdvancedTradingStrategy.new initial_cash) price_data k)
      (50 + k) (prices_getD price_data (50 + k))
    rw [hlog0] at hlog
    have he : e0 = e := by
      have := List.append_cancel_left hlog
      simpa using this
    subst he
    rcases hcase with ⟨ha, _⟩ | ⟨_, hsh, _⟩ | ⟨ha, _⟩
    · rw [ha] at hbuy; exact absurd hbuy (by decide)
    · exact hsh
    · rw [ha] at hbuy; exact absurd hbuy (by decide)

theorem tradeBars_actions :
    tradeActions
      (backtest sqrtApprox (AdvancedTradingStrategy.new 100000) tradeBars).2.trade_history =
        ["BUY", "SELL"] := by
  decide!

/-- Witness for C10: the series `tradeBars` (one BUY, then a stop-loss SELL) from an
initial cash of `100000`. -/
theorem backtest_no_pyramiding_witness :
    50 ≤ tradeBars.length ∧ (∀ d ∈ tradeBars, 0 < d.close) ∧
    alternatesFrom true (tradeActions
      (backtest sqrtApprox (AdvancedTradingStrategy.new 100000) tradeBars).2.trade_history)
        = true ∧
    (∀ k e, 50 + k < tradeBars.length →
      (backtestAfter sqrtApprox (AdvancedTradingStrategy.new 100000) tradeBars
          (k + 1)).trade_history =
        (backtestAfter sqrtApprox (AdvancedTradingStrategy.new 100000) tradeBars
          k).trade_history ++ [e] →
      e.action = "BUY" →
      (backtestAfter sqrtApprox (AdvancedTradingStrategy.new 100000) tradeBars k).shares
        = 0) :=
  ⟨tradeBars_length, tradeBars_pos,
    backtest_no_pyramiding sqrtApprox 100000 tradeBars tradeBars_length tradeBars_pos⟩

/-! ### Single bars: risk exits and trade execution -/

theorem indicators_prices_getD (sqrt : ℚ → ℚ) (price_data : List PriceData) (i : Nat) :
    (backtestIndicators sqrt price_data).prices.getD i 0 = (price_data.getD i {}).close :=
  prices_getD price_data i

/-- C13: at a bar with `shares > 0`, `entry_price > 0` and a return of at most `-0.08`,
whatever the indicators are, the bar appends exactly one signal, a SELL with reason
"Stop Loss", and leaves `cash = old cash + old shares * price`, `shares = 0`,
`entry_price = 0` and `consecutive_losses = old + 1`. -/
theorem backtestStep_stop_loss (sqrt : ℚ → ℚ) (price_data : List PriceData)
    (st : AdvancedTradingStrategy) (i : Nat) (hs : 0 < st.shares) (he : 0 < st.entry_price)
    (hr : ((price_data.getD i {}).close - st.entry_price) / st.entry_price ≤ -(8 / 100)) :
    backtestStep (backtestIndicators sqrt price_data) price_data st i =
      { cash := st.cash + st.shares * (price_data.getD i {}).close,
        shares := 0,
        initial_capital := st.initial_capital,
        trade_history := st.trade_history ++
          [{ date := (price_data.getD i {}).date, action := "SELL",
             price := (price_data.getD i {}).close,
             rsi := (backtestIndicators sqrt price_data).rsi.getD i 0,
             macd := (backtestIndicators sqrt price_data).macd_result.macd.getD i 0,
             signal := (backtestIndicators sqrt price_data).macd_result.signal.getD i 0,
             portfolio_value := st.cash + st.shares * (price_data.getD i {}).close,
             reason := "Stop Loss" }],
        entry_price := 0,
        consecutive_losses := st.consecutive_losses + 1 } := by
  have h : stopLossHit (backtestIndicators sqrt price_data) st i = true := by
    apply decide_eq_true
    refine ⟨⟨hs, he⟩, ?_⟩
    unfold current_return stop_loss_pct
    rw [indicators_prices_getD]
    exact hr
  unfold backtestStep
  dsimp only
  rw [if_pos h, executeTrade_sell _ _ _ _ _ _ hs]
  simp

/-- C14: at a bar with `shares > 0`, `entry_price > 0` and a return of at least `0.12`,
whatever the indicators are, the bar appends exactly one signal, a SELL with reason
"Take Profit", and leaves `cash = old cash + old shares * price`, `shares = 0`,
`entry_price = 0` and `consecutive_losses = 0`. -/
theorem backtestStep_take_profit (sqrt : ℚ → ℚ) (price_data : List PriceData)
    (st : AdvancedTradingStrategy) (i : Nat) (hs : 0 < st.shares) (he : 0 < st.entry_price)
    (hr : ((price_data.getD i {}).close - st.entry_price) / st.entry_price ≥ 12 / 100) :
    backtestStep (backtestIndicators sqrt price_data) price_data st i =
      { cash := st.cash + st.shares * (price_data.getD i {}).close,
        shares := 0,
        initial_capital := st.initial_capital,
        trade_history := st.trade_history ++
          [{ date := (price_data.getD i {}).date, action := "SELL",
             price := (price_data.getD i {}).close,
             rsi := (backtestIndicators sqrt price_data).rsi.getD i 0,
             macd := (backtestIndicators sqrt price_data).macd_result.macd.getD i 0,
             signal := (backtestIndicators sqrt price_data).macd_result.signal.getD i 0,
             portfolio_value := st.cash + st.shares * (price_data.getD i {}).close,
             reason := "Take Profit" }],
        entry_price := 0,
        consecutive_losses := 0 } := by
  have h1 : stopLossHit (backtestIndicators sqrt price_data) st i = false := by
    apply decide_eq_false
    intro hc
    have h2 := hc.2
    unfold current_return stop_loss_pct at h2
    rw [indicators_prices_getD] at h2
    linarith
  have h : takeProfitHit (backtestIndicators sqrt price_data) st i = true := by
    apply decide_eq_true
    refine ⟨⟨hs, he⟩, ?_⟩
    unfold current_return take_profit_pct
    rw [indicators_prices_getD]
    exact hr
  unfold backtestStep
  dsimp only
  rw [if_neg (by rw [h1]; decide), if_pos h, executeTrade_sell _ _ _ _ _ _ hs]
  simp

/-- C15: a BUY executed at a bar with close `p > 0` from a state with `shares = 0` and
`cash = c > p` leaves `shares = 0.9 * c / p`, `entry_price = p` and
`cash = c - shares * p = 0.1 * c`, which is strictly positive. -/
theorem executeTrade_buy_sizing (st : AdvancedTradingStrategy) (data : PriceData)
    (reason : String) (r m s : ℚ) (hp : 0 < data.close) (h0 : st.shares = 0)
    (hc : st.cash > data.close) :
    (executeTrade st data "BUY" reason r m s).shares = 90 / 100 * st.cash / data.close ∧
    (executeTrade st data "BUY" reason r m s).entry_price = data.close ∧
    (executeTrade st data "BUY" reason r m s).cash =
      st.cash - (executeTrade st data "BUY" reason r m s).shares * data.close ∧
    (executeTrade st data "BUY" reason r m s).cash = 10 / 100 * st.cash ∧
    0 < (executeTrade st data "BUY" reason r m s).cash := by
  rw [executeTrade_buy st data reason r m s h0 hc]
  have hne : data.close ≠ 0 := ne_of_gt hp
  have hcash : st.cash - st.cash * position_size_pct / data.close * data.close =
      10 / 100 * st.cash := by
    unfold position_size_pct
    field_simp
    ring
  refine ⟨?_, rfl, rfl, hcash, ?_⟩
  · show st.cash * position_size_pct / data.close = 90 / 100 * st.cash / data.close
    unfold position_size_pct
    ring
  · show 0 < st.cash - st.cash * position_size_pct / data.close * data.close
    rw [hcash]
    have : 0 < st.cash := lt_trans hp hc
    linarith

/-! ### Single bars: entry and exit decisions -/

theorem buySignal1_iff (ind : Indicators) (i : Nat) :
    buySignal1 ind i = true ↔ entryA ind i := by
  simp [buySignal1, entryA, macd_bullish, uptrend, rsi_oversold, and_assoc]

theorem buySignal2_iff (ind : Indicators) (i : Nat) :
    buySignal2 ind i = true ↔ entryB ind i := by
  simp [buySignal2, entryB, macd_crossover_up, uptrend, and_assoc]

theorem buySignal3_iff (ind : Indicators) (i : Nat) :
    buySignal3 ind i = true ↔ entryC ind i := by
  simp [buySignal3, entryC, and_assoc]

theorem buySignal4_iff (ind : Indicators) (i : Nat) :
    buySignal4 ind i = true ↔ entryD ind i := by
  simp [buySignal4, entryD, uptrend, and_assoc]

theorem sellSignal1_iff (ind : Indicators) (i : Nat) :
    sellSignal1 ind i = true ↔ exitA ind i := by
  simp [sellSignal1, exitA, macd_bullish, rsi_overbought]

theorem sellSignal2_iff (ind : Indicators) (i : Nat) :
    sellSignal2 ind i = true ↔ exitB ind i := by
  simp [sellSignal2, exitB, macd_crossover_down, and_assoc]

theorem sellSignal3_iff (ind : Indicators) (i : Nat) :
    sellSignal3 ind i = true ↔ exitC ind i := by
  simp [sellSignal3, exitC, uptrend]

theorem buyAllowed_iff (sqrt : ℚ → ℚ) (price_data : List PriceData)
    (st : AdvancedTradingStrategy) (i : Nat) :
    buyAllowed (backtestIndicators sqrt price_data) st i = true ↔
      st.shares = 0 ∧ st.cash > (price_data.getD i {}).close ∧ st.consecutive_losses < 3 := by
  unfold buyAllowed max_consecutive_losses
  rw [indicators_prices_getD, decide_eq_true_iff]

theorem stopLossHit_flat (ind : Indicators) (st : AdvancedTradingStrategy) (i : Nat)
    (h0 : ¬ 0 < st.shares) : stopLossHit ind st i = false :=
  decide_eq_false (fun h => h0 h.1.1)

theorem takeProfitHit_flat (ind : Indicators) (st : AdvancedTradingStrategy) (i : Nat)
    (h0 : ¬ 0 < st.shares) : takeProfitHit ind st i = false :=
  decide_eq_false (fun h => h0 h.1.1)

theorem backtestStep_flat (ind : Indicators) (price_data : List PriceData)
    (st : AdvancedTradingStrategy) (i : Nat) (h0 : st.shares = 0) :
    backtestStep ind price_data st i =
      if buyAllowed ind st i ∧ buySignal1 ind i then
        executeTrade st (price_data.getD i {}) "BUY" "Strong Oversold + MACD Bull + Uptrend"
          (ind.rsi.getD i 0) (ind.macd_result.macd.getD i 0) (ind.macd_result.signal.getD i 0)
      else if buyAllowed ind st i ∧ buySignal2 ind i then
        executeTrade st (price_data.getD i {}) "BUY" "MACD Crossover + RSI Neutral + Uptrend"
          (ind.rsi.getD i 0) (ind.macd_result.macd.getD i 0) (ind.macd_result.signal.getD i 0)
      else if buyAllowed ind st i ∧ buySignal3 ind i then
        executeTrade st (price_data.getD i {}) "BUY" "BB Lower Bounce + RSI Oversold"
          (ind.rsi.getD i 0) (ind.macd_result.macd.getD i 0) (ind.macd_result.signal.getD i 0)
      else if buyAllowed ind st i ∧ buySignal4 ind i then
        executeTrade st (price_data.getD i {}) "BUY" "RSI Oversold + Uptrend + MACD Improving"
          (ind.rsi.getD i 0) (ind.macd_result.macd.getD i 0) (ind.macd_result.signal.getD i 0)
      else
        { st with trade_history := st.trade_history ++ [holdSignal ind price_data st i] } := by
  have hn : ¬ 0 < st.shares := by rw [h0]; exact lt_irrefl 0
  have hs : ∀ b : Bool, ¬ (st.shares > 0 ∧ b = true) := fun b h => hn h.1
  unfold backtestStep
  dsimp only
  rw [stopLossHit_flat ind st i hn, takeProfitHit_flat ind st i hn,
    if_neg (by decide), if_neg (by decide), if_neg (hs _), if_neg (hs _), if_neg (hs _)]

/-- C16: at a bar with `shares = 0`, a BUY is emitted exactly when `cash > price`,
`consecutive_losses < 3` and one of the entry predicates (a), (b), (c), (d) holds; the
reason recorded is that of the first predicate that holds in this order; otherwise the
bar emits HOLD with reason "No signal". -/
theorem backtestStep_entry_decision (sqrt : ℚ → ℚ) (price_data : List PriceData)
    (st : AdvancedTradingStrategy) (i : Nat) (h0 : st.shares = 0) :
    ∃ e, (backtestStep (backtestIndicators sqrt price_data) price_data st i).trade_history =
        st.trade_history ++ [e] ∧
      (e.action = "BUY" ↔
        (st.cash > (price_data.getD i {}).close ∧ st.consecutive_losses < 3) ∧
          (entryA (backtestIndicators sqrt price_data) i ∨
            entryB (backtestIndicators sqrt price_data) i ∨
            entryC (backtestIndicators sqrt price_data) i ∨
            entryD (backtestIndicators sqrt price_data) i)) ∧
      (e.action = "BUY" → entryA (backtestIndicators sqrt price_data) i →
        e.reason = "Strong Oversold + MACD Bull + Uptrend") ∧
      (e.action = "BUY" → ¬ entryA (backtestIndicators sqrt price_data) i →
        entryB (backtestIndicators sqrt price_data) i →
        e.reason = "MACD Crossover + RSI Neutral + Uptrend") ∧
      (e.action = "BUY" → ¬ entryA (backtestIndicators sqrt price_data) i →
        ¬ entryB (backtestIndicators sqrt price_data) i →
        entryC (backtestIndicators sqrt price_data) i →
        e.reason = "BB Lower Bounce + RSI Oversold") ∧
      (e.action = "BUY" → ¬ entryA (backtestIndicators sqrt price_data) i →
        ¬ entryB (backtestIndicators sqrt price_data) i →
        ¬ entryC (backtestIndicators sqrt price_data) i →
        e.reason = "RSI Oversold + Uptrend + MACD Improving") ∧
      (e.action ≠ "BUY" → e.action = "HOLD" ∧ e.reason = "No signal") := by
  rw [backtestStep_flat _ _ _ _ h0]
  by_cases hg : st.cash > (price_data.getD i {}).close ∧ st.consecutive_losses < 3
  · have hb : buyAllowed (backtestIndicators sqrt price_data) st i = true :=
      (buyAllowed_iff sqrt price_data st i).2 ⟨h0, hg.1, hg.2⟩
    by_cases hA : entryA (backtestIndicators sqrt price_data) i
    · rw [if_pos ⟨hb, (buySignal1_iff _ _).2 hA⟩, executeTrade_buy _ _ _ _ _ _ h0 hg.1]
      refine ⟨_, rfl, iff_of_true rfl ⟨hg, Or.inl hA⟩, ?_, ?_, ?_, ?_, ?_⟩ <;> simp [hA]
    rw [if_neg (fun h => hA ((buySignal1_iff _ _).1 h.2))]
    by_cases hB : entryB (backtestIndicators sqrt price_data) i
    · rw [if_pos ⟨hb, (buySignal2_iff _ _).2 hB⟩, executeTrade_buy _ _ _ _ _ _ h0 hg.1]
      refine ⟨_, rfl, iff_of_true rfl ⟨hg, Or.inr (Or.inl hB)⟩, ?_, ?_, ?_, ?_, ?_⟩ <;>
        simp [hA, hB]
    rw [if_neg (fun h => hB ((buySignal2_iff _ _).1 h.2))]
    by_cases hC : entryC (backtestIndicators sqrt price_data) i
    · rw [if_pos ⟨hb, (buySignal3_iff _ _).2 hC⟩, executeTrade_buy _ _ _ _ _ _ h0 hg.1]
      refine ⟨_, rfl, iff_of_true rfl ⟨hg, Or.inr (Or.inr (Or.inl hC))⟩, ?_, ?_, ?_, ?_, ?_⟩ <;>
        simp [hA, hB, hC]
    rw [if_neg (fun h => hC ((buySignal3_iff _ _).1 h.2))]
    by_cases hD : entryD (backtestIndicators sqrt price_data) i
    · rw [if_pos ⟨hb, (buySignal4_iff _ _).2 hD⟩, executeTrade_buy _ _ _ _ _ _ h0 hg.1]
      refine ⟨_, rfl, iff_of_true rfl ⟨hg, Or.inr (Or.inr (Or.inr hD))⟩, ?_, ?_, ?_, ?_, ?_⟩ <;>
        simp [hA, hB, hC, hD]
    rw [if_neg (fun h => hD ((buySignal4_iff _ _).1 h.2))]
    refine ⟨_, rfl, iff_of_false (by simp [holdSignal])
      (fun h => by rcases h.2 with h | h | h | h <;> contradiction), ?_, ?_, ?_, ?_, ?_⟩ <;>
      simp [holdSignal]
  · have hb : ¬ buyAllowed (backtestIndicators sqrt price_data) st i = true :=
      fun h => hg ((buyAllowed_iff sqrt price_data st i).1 h).2
    rw [if_neg (fun h => hb h.1), if_neg (fun h => hb h.1), if_neg (fun h => hb h.1),
      if_neg (fun h => hb h.1)]
    refine ⟨_, rfl, iff_of_false (by simp [holdSignal]) (fun h => hg h.1), ?_, ?_, ?_, ?_, ?_⟩ <;>
      simp [holdSignal]

theorem buyAllowed_holding (ind : Indicators) (st : AdvancedTradingStrategy) (i : Nat)
    (hs : 0 < st.shares) : ¬ buyAllowed ind st i = true := by
  intro h
  exact absurd (of_decide_eq_true h).1 (ne_of_gt hs)

theorem backtestStep_holding (ind : Indicators) (price_data : List PriceData)
    (st : AdvancedTradingStrategy) (i : Nat) (hs : 0 < st.shares)
    (h1 : stopLossHit ind st i = false) (h2 : takeProfitHit ind st i = false) :
    backtestStep ind price_data st i =
      if sellSignal1 ind i then
        executeTrade st (price_data.getD i {}) "SELL" "RSI Overbought + MACD Bearish"
          (ind.rsi.getD i 0) (ind.macd_result.macd.getD i 0) (ind.macd_result.signal.getD i 0)
      else if sellSignal2 ind i then
        executeTrade st (price_data.getD i {}) "SELL" "MACD Bearish Crossover"
          (ind.rsi.getD i 0) (ind.macd_result.macd.getD i 0) (ind.macd_result.signal.getD i 0)
      else if sellSignal3 ind i then
        executeTrade st (price_data.getD i {}) "SELL" "Trend Reversal"
          (ind.rsi.getD i 0) (ind.macd_result.macd.getD i 0) (ind.macd_result.signal.getD i 0)
      else
        { st with trade_history := st.trade_history ++ [holdSignal ind price_data st i] } := by
  have hb := buyAllowed_holding ind st i hs
  have hsell : ∀ b : Bool, (st.shares > 0 ∧ b = true) = (b = true) :=
    fun b => propext ⟨fun h => h.2, fun h => ⟨hs, h⟩⟩
  unfold backtestStep
  dsimp only
  rw [h1, h2, if_neg (by decide), if_neg (by decide), if_neg (fun h => hb h.1),
    if_neg (fun h => hb h.1), if_neg (fun h => hb h.1), if_neg (fun h => hb h.1)]
  simp only [hsell]

/-- C17: at a bar with `shares > 0` where neither risk exit fires
(`-0.08 < return < 0.12`), a SELL is emitted exactly when one of the exit predicates
(a), (b), (c) holds, with the reason of the first that holds in this order; otherwise the
bar emits HOLD with reason "No signal" and `cash`, `shares`, `entry_price` and
`consecutive_losses` are unchanged. -/
theorem backtestStep_exit_decision (sqrt : ℚ → ℚ) (price_data : List PriceData)
    (st : AdvancedTradingStrategy) (i : Nat) (hs : 0 < st.shares)
    (hlo : -(8 / 100) < ((price_data.getD i {}).close - st.entry_price) / st.entry_price)
    (hhi : ((price_data.getD i {}).close - st.entry_price) / st.entry_price < 12 / 100) :
    ∃ e, (backtestStep (backtestIndicators sqrt price_data) price_data st i).trade_history =
        st.trade_history ++ [e] ∧
      (e.action = "SELL" ↔
        (exitA (backtestIndicators sqrt price_data) i ∨
          exitB (backtestIndicators sqrt price_data) i ∨
          exitC (backtestIndicators sqrt price_data) i)) ∧
      (e.action = "SELL" → exitA (backtestIndicators sqrt price_data) i →
        e.reason = "RSI Overbought + MACD Bearish") ∧
      (e.action = "SELL" → ¬ exitA (backtestIndicators sqrt price_data) i →
        exitB (backtestIndicators sqrt price_data) i →
        e.reason = "MACD Bearish Crossover") ∧
      (e.action = "SELL" → ¬ exitA (backtestIndicators sqrt price_data) i →
        ¬ exitB (backtestIndicators sqrt price_data) i →
        e.reason = "Trend Reversal") ∧
      (e.action ≠ "SELL" → e.action = "HOLD" ∧ e.reason = "No signal" ∧
        (backtestStep (backtestIndicators sqrt price_data) price_data st i).cash = st.cash ∧
        (backtestStep (backtestIndicators sqrt price_data) price_data st i).shares =
          st.shares ∧
        (backtestStep (backtestIndicators sqrt price_data) price_data st i).entry_price =
          st.entry_price ∧
        (backtestStep (backtestIndicators sqrt price_data) price_data st i).consecutive_losses
          = st.consecutive_losses) := by
  have h1 : stopLossHit (backtestIndicators sqrt price_data) st i = false := by
    apply decide_eq_false
    intro hc
    have h2 := hc.2
    unfold current_return stop_loss_pct at h2
    rw [indicators_prices_getD] at h2
    linarith
  have h2 : takeProfitHit (backtestIndicators sqrt price_data) st i = false := by
    apply decide_eq_false
    intro hc
    have h2 := hc.2
    unfold current_return take_profit_pct at h2
    rw [indicators_prices_getD] at h2
    linarith
  rw [backtestStep_holding _ _ _ _ hs h1 h2]
  by_cases hA : exitA (backtestIndicators sqrt price_data) i
  · rw [if_pos ((sellSignal1_iff _ _).2 hA), executeTrade_sell _ _ _ _ _ _ hs]
    refine ⟨_, rfl, iff_of_true rfl (Or.inl hA), ?_, ?_, ?_, ?_⟩ <;> simp [hA]
  rw [if_neg (fun h => hA ((sellSignal1_iff _ _).1 h))]
  by_cases hB : exitB (backtestIndicators sqrt price_data) i
  · rw [if_pos ((sellSignal2_iff _ _).2 hB), executeTrade_sell _ _ _ _ _ _ hs]
    refine ⟨_, rfl, iff_of_true rfl (Or.inr (Or.inl hB)), ?_, ?_, ?_, ?_⟩ <;> simp [hA, hB]
  rw [if_neg (fun h => hB ((sellSignal2_iff _ _).1 h))]
  by_cases hC : exitC (backtestIndicators sqrt price_data) i
  · rw [if_pos ((sellSignal3_iff _ _).2 hC), executeTrade_sell _ _ _ _ _ _ hs]
    refine ⟨_, rfl, iff_of_true rfl (Or.inr (Or.inr hC)), ?_, ?_, ?_, ?_⟩ <;>
      simp [hA, hB, hC]
  rw [if_neg (fun h => hC ((sellSignal3_iff _ _).1 h))]
  refine ⟨_, rfl, iff_of_false (by simp [holdSignal])
    (fun h => by rcases h with h | h | h <;> contradiction), ?_, ?_, ?_, ?_⟩ <;>
    simp [holdSignal]

/-! ### Single bars: the signal appended and the loss streak -/

theorem executeTrade_log (st : AdvancedTradingStrategy) (data : PriceData)
    (action reason : String) (r m s : ℚ) :
    (executeTrade st data action reason r m s).trade_history =
      st.trade_history ++
        [{ date := data.date, action := action, price := data.close, rsi := r, macd := m,
           signal := s,
           portfolio_value := (executeTrade st data action reason r m s).cash +
             (executeTrade st data action reason r m s).shares * data.close,
           reason := reason }] ∧
    (executeTrade st data action reason r m s).consecutive_losses = st.consecutive_losses := by
  unfold executeTrade
  dsimp only
  split_ifs <;> exact ⟨rfl, rfl⟩

theorem backtestStep_signal (ind : Indicators) (price_data : List PriceData)
    (st : AdvancedTradingStrategy) (i : Nat)
    (hp : ind.prices.getD i 0 = (price_data.getD i {}).close) :
    ∃ action reason,
      (backtestStep ind price_data st i).trade_history =
        st.trade_history ++
          [{ date := (price_data.getD i {}).date, action := action,
             price := (price_data.getD i {}).close, rsi := ind.rsi.getD i 0,
             macd := ind.macd_result.macd.getD i 0,
             signal := ind.macd_result.signal.getD i 0,
             portfolio_value := (backtestStep ind price_data st i).cash +
               (backtestStep ind price_data st i).shares * (price_data.getD i {}).close,
             reason := reason }] ∧
      ((action = "SELL" ∧ reason = "Stop Loss" ∧
          (backtestStep ind price_data st i).consecutive_losses = st.consecutive_losses + 1) ∨
       (action = "SELL" ∧ reason = "Take Profit" ∧
          (backtestStep ind price_data st i).consecutive_losses = 0) ∨
       (action = "BUY" ∧
          reason ∈ ["Strong Oversold + MACD Bull + Uptrend",
            "MACD Crossover + RSI Neutral + Uptrend", "BB Lower Bounce + RSI Oversold",
            "RSI Oversold + Uptrend + MACD Improving"] ∧
          (backtestStep ind price_data st i).consecutive_losses = st.consecutive_losses) ∨
       (action = "SELL" ∧
          reason ∈ ["RSI Overbought + MACD Bearish", "MACD Bearish Crossover",
            "Trend Reversal"] ∧
          (backtestStep ind price_data st i).consecutive_losses = st.consecutive_losses) ∨
       (action = "HOLD" ∧ reason = "No signal" ∧
          (backtestStep ind price_data st i).consecutive_losses = st.consecutive_losses ∧
          (backtestStep ind price_data st i).cash = st.cash ∧
          (backtestStep ind price_data st i).shares = st.shares ∧
          (backtestStep ind price_data st i).entry_price = st.entry_price)) := by
  generalize hst : backtestStep ind price_data st i = st'
  unfold backtestStep at hst
  dsimp only at hst
  split_ifs at hst with h1 h2 h3 h4 h5 h6 h7 h8 h9
  · subst hst
    exact ⟨"SELL", "Stop Loss", (executeTrade_log _ _ _ _ _ _ _).1,
      Or.inl ⟨rfl, rfl, by rw [← (executeTrade_log st _ "SELL" "Stop Loss" _ _ _).2]⟩⟩
  · subst hst
    exact ⟨"SELL", "Take Profit", (executeTrade_log _ _ _ _ _ _ _).1,
      Or.inr (Or.inl ⟨rfl, rfl, rfl⟩)⟩
  · subst hst
    exact ⟨"BUY", _, (executeTrade_log _ _ _ _ _ _ _).1,
      Or.inr (Or.inr (Or.inl ⟨rfl, by simp, (executeTrade_log _ _ _ _ _ _ _).2⟩))⟩
  · subst hst
    exact ⟨"BUY", _, (executeTrade_log _ _ _ _ _ _ _).1,
      Or.inr (Or.inr (Or.inl ⟨rfl, by simp, (executeTrade_log _ _ _ _ _ _ _).2⟩))⟩
  · subst hst
    exact ⟨"BUY", _, (executeTrade_log _ _ _ _ _ _ _).1,
      Or.inr (Or.inr (Or.inl ⟨rfl, by simp, (executeTrade_log _ _ _ _ _ _ _).2⟩))⟩
  · subst hst
    exact ⟨"BUY", _, (executeTrade_log _ _ _ _ _ _ _).1,
      Or.inr (Or.inr (Or.inl ⟨rfl, by simp, (executeTrade_log _ _ _ _ _ _ _).2⟩))⟩
  · subst hst
    exact ⟨"SELL", _, (executeTrade_log _ _ _ _ _ _ _).1,
      Or.inr (Or.inr (Or.inr (Or.inl ⟨rfl, by simp, (executeTrade_log _ _ _ _ _ _ _).2⟩)))⟩
  · subst hst
    exact ⟨"SELL", _, (executeTrade_log _ _ _ _ _ _ _).1,
      Or.inr (Or.inr (Or.inr (Or.inl ⟨rfl, by simp, (executeTrade_log _ _ _ _ _ _ _).2⟩)))⟩
  · subst hst
    exact ⟨"SELL", _, (executeTrade_log _ _ _ _ _ _ _).1,
      Or.inr (Or.inr (Or.inr (Or.inl ⟨rfl, by simp, (executeTrade_log _ _ _ _ _ _ _).2⟩)))⟩
  · subst hst
    refine ⟨"HOLD", "No signal", ?_, Or.inr (Or.inr (Or.inr (Or.inr
      ⟨rfl, rfl, rfl, rfl, rfl, rfl⟩)))⟩
    show st.trade_history ++ [holdSignal ind price_data st i] = _
    unfold holdSignal
    rw [hp]

/-- C19: across one bar `consecutive_losses` becomes `old + 1` on a "Stop Loss" SELL,
`0` on a "Take Profit" SELL, and is unchanged on every other signal: every HOLD, every
BUY and every SELL with reason "RSI Overbought + MACD Bearish",
"MACD Bearish Crossover" or "Trend Reversal". -/
theorem backtestStep_loss_streak (sqrt : ℚ → ℚ) (price_data : List PriceData)
    (st : AdvancedTradingStrategy) (i : Nat) :
    ∃ e, (backtestStep (backtestIndicators sqrt price_data) price_data st i).trade_history =
        st.trade_history ++ [e] ∧
      (e.reason = "Stop Loss" → e.action = "SELL" ∧
        (backtestStep (backtestIndicators sqrt price_data) price_data st i).consecutive_losses
          = st.consecutive_losses + 1) ∧
      (e.reason = "Take Profit" → e.action = "SELL" ∧
        (backtestStep (backtestIndicators sqrt price_data) price_data st i).consecutive_losses
          = 0) ∧
      (e.reason ≠ "Stop Loss" → e.reason ≠ "Take Profit" →
        (backtestStep (backtestIndicators sqrt price_data) price_data st i).consecutive_losses
          = st.consecutive_losses) ∧
      (e.action = "HOLD" ∨ e.action = "BUY" ∨
        (e.action = "SELL" ∧ (e.reason = "RSI Overbought + MACD Bearish" ∨
          e.reason = "MACD Bearish Crossover" ∨ e.reason = "Trend Reversal")) →
        (backtestStep (backtestIndicators sqrt price_data) price_data st i).consecutive_losses
          = st.consecutive_losses) := by
  obtain ⟨action, reason, hlog, hcase⟩ :=
    backtestStep_signal (backtestIndicators sqrt price_data) price_data st i
      (indicators_prices_getD sqrt price_data i)
  refine ⟨_, hlog, ?_⟩
  dsimp only
  rcases hcase with ⟨ha, hr, hc⟩ | ⟨ha, hr, hc⟩ | ⟨ha, hr, hc⟩ | ⟨ha, hr, hc⟩ |
    ⟨ha, hr, hc, _⟩
  · subst ha hr
    refine ⟨fun _ => ⟨rfl, hc⟩, fun h => absurd h (by decide), fun h => absurd rfl h, ?_⟩
    intro h
    rcases h with h | h | ⟨_, h | h | h⟩ <;> exact absurd h (by decide)
  · subst ha hr
    refine ⟨fun h => absurd h (by decide), fun _ => ⟨rfl, hc⟩, fun _ h => absurd rfl h, ?_⟩
    intro h
    rcases h with h | h | ⟨_, h | h | h⟩ <;> exact absurd h (by decide)
  · subst ha
    simp only [List.mem_cons, List.mem_singleton, List.not_mem_nil, or_false] at hr
    refine ⟨fun h => ?_, fun h => ?_, fun _ _ => hc, fun _ => hc⟩ <;>
      (subst h; rcases hr with h | h | h | h <;> exact absurd h (by decide))
  · subst ha
    simp only [List.mem_cons, List.mem_singleton, List.not_mem_nil, or_false] at hr
    refine ⟨fun h => ?_, fun h => ?_, fun _ _ => hc, fun _ => hc⟩ <;>
      (subst h; rcases hr with h | h | h <;> exact absurd h (by decide))
  · subst ha hr
    exact ⟨fun h => absurd h (by decide), fun h => absurd h (by decide), fun _ _ => hc,
      fun _ => hc⟩

/-! ### The signal log of a run -/

theorem backtestAfter_log (sqrt : ℚ → ℚ) (initial_cash : ℚ) (price_data : List PriceData)
    (k : Nat) :
    (backtestAfter sqrt (AdvancedTradingStrategy.new initial_cash) price_data
      k).trade_history.length = k ∧
    ∀ j, j < k →
      (backtestAfter sqrt (AdvancedTradingStrategy.new initial_cash) price_data
        k).trade_history[j]? =
      (backtestAfter sqrt (AdvancedTradingStrategy.new initial_cash) price_data
        (j + 1)).trade_history[j]? := by
  induction k with
  | zero =>
    refine ⟨?_, fun j hj => absurd hj (Nat.not_lt_zero j)⟩
    unfold backtestAfter
    rw [forLoop_zero]
    rfl
  | succ k ih =>
    obtain ⟨e, hlog, _⟩ := backtestStep_cases (backtestIndicators sqrt price_data) price_data
      (backtestAfter sqrt (AdvancedTradingStrategy.new initial_cash) price_data k) (50 + k)
      (prices_getD price_data (50 + k))
    rw [← backtestAfter_succ] at hlog
    refine ⟨by rw [hlog, List.length_append, ih.1]; rfl, fun j hj => ?_⟩
    by_cases hjk : j = k
    · rw [hjk]
    · have hlt : j < k := by omega
      rw [hlog, List.getElem?_append_left (by rw [ih.1]; exact hlt), ih.2 j hlt]

/-- C11: for a series of `n ≥ 50` bars, `backtest` on a fresh engine logs exactly
`n - 50` signals; the `k`-th one has the date and close of bar `50 + k`, the RSI(14), MACD
and MACD-signal values of that index, an action among BUY, SELL, HOLD, and
`portfolio_value = cash + shares * close` on the state after that bar. -/
theorem backtest_log_shape (sqrt : ℚ → ℚ) (initial_cash : ℚ) (price_data : List PriceData)
    (hlen : 50 ≤ price_data.length) :
    (backtest sqrt (AdvancedTradingStrategy.new initial_cash)
      price_data).2.trade_history.length = price_data.length - 50 ∧
    ∀ k, 50 + k < price_data.length →
      ∃ e, (backtest sqrt (AdvancedTradingStrategy.new initial_cash)
          price_data).2.trade_history[k]? = some e ∧
        e.date = (price_data.getD (50 + k) {}).date ∧
        e.price = (price_data.getD (50 + k) {}).close ∧
        e.rsi = (calculateRSI (price_data.map (fun data => data.close)) 14).getD (50 + k) 0 ∧
        e.macd =
          (calculateMACD (price_data.map (fun data => data.close)) 12 26 9).macd.getD
            (50 + k) 0 ∧
        e.signal =
          (calculateMACD (price_data.map (fun data => data.close)) 12 26 9).signal.getD
            (50 + k) 0 ∧
        (e.action = "BUY" ∨ e.action = "SELL" ∨ e.action = "HOLD") ∧
        e.portfolio_value =
          (backtestAfter sqrt (AdvancedTradingStrategy.new initial_cash) price_data
            (k + 1)).cash +
          (backtestAfter sqrt (AdvancedTradingStrategy.new initial_cash) price_data
            (k + 1)).shares * (price_data.getD (50 + k) {}).close := by
  rw [backtest_eq_backtestAfter _ _ _ hlen]
  refine ⟨(backtestAfter_log sqrt initial_cash price_data _).1, fun k hk => ?_⟩
  obtain ⟨action, reason, hlog, hcase⟩ :=
    backtestStep_signal (backtestIndicators sqrt price_data) price_data
      (backtestAfter sqrt (AdvancedTradingStrategy.new initial_cash) price_data k) (50 + k)
      (indicators_prices_getD sqrt price_data (50 + k))
  rw [← backtestAfter_succ] at hlog
  refine ⟨TradingSignal.mk (price_data.getD (50 + k) {}).date action
      (price_data.getD (50 + k) {}).close
      ((backtestIndicators sqrt price_data).rsi.getD (50 + k) 0)
      ((backtestIndicators sqrt price_data).macd_result.macd.getD (50 + k) 0)
      ((backtestIndicators sqrt price_data).macd_result.signal.getD (50 + k) 0)
      ((backtestAfter sqrt (AdvancedTradingStrategy.new initial_cash) price_data
          (k + 1)).cash +
        (backtestAfter sqrt (AdvancedTradingStrategy.new initial_cash) price_data
          (k + 1)).shares * (price_data.getD (50 + k) {}).close)
      reason, ?_, rfl, rfl, rfl, rfl, rfl, ?_, rfl⟩
  · show (backtestAfter sqrt (AdvancedTradingStrategy.new initial_cash) price_data
      (price_data.length - 50)).trade_history[k]? = _
    rw [(backtestAfter_log sqrt initial_cash price_data _).2 k (by omega), hlog,
      List.getElem?_append_right (by rw [(backtestAfter_log sqrt initial_cash price_data k).1]),
      (backtestAfter_log sqrt initial_cash price_data k).1]
    simp
  · show action = "BUY" ∨ action = "SELL" ∨ action = "HOLD"
    rcases hcase with ⟨ha, _⟩ | ⟨ha, _⟩ | ⟨ha, _⟩ | ⟨ha, _⟩ | ⟨ha, _⟩
    · exact Or.inr (Or.inl ha)
    · exact Or.inr (Or.inl ha)
    · exact Or.inl ha
    · exact Or.inr (Or.inl ha)
    · exact Or.inr (Or.inr ha)

/-! ### The loss streak and the lock-out -/

theorem backtestStep_lockInv (ind : Indicators) (price_data : List PriceData)
    (st : AdvancedTradingStrategy) (i : Nat) (hinv : LockInv st) :
    LockInv (backtestStep ind price_data st i) := by
  obtain ⟨hle, hflat⟩ := hinv
  have hsell : ∀ (reason : String) (r m s : ℚ), 0 < st.shares →
      LockInv (executeTrade st (price_data.getD i {}) "SELL" reason r m s) := by
    intro reason r m s hs
    rw [executeTrade_sell _ _ _ _ _ _ hs]
    exact ⟨hle, fun _ => rfl⟩
  have hbuy : ∀ (reason : String) (r m s : ℚ), buyAllowed ind st i = true →
      LockInv (executeTrade st (price_data.getD i {}) "BUY" reason r m s) := by
    intro reason r m s hb
    have hlt : st.consecutive_losses < 3 := (of_decide_eq_true hb).2.2
    have hc := (executeTrade_log st (price_data.getD i {}) "BUY" reason r m s).2
    unfold LockInv
    rw [hc]
    exact ⟨hle, fun h => absurd h (ne_of_lt hlt)⟩
  unfold backtestStep
  dsimp only
  split_ifs with h1 h2 h3 h4 h5 h6 h7 h8 h9
  · have hs : 0 < st.shares := (of_decide_eq_true h1).1.1
    have hne : st.consecutive_losses ≠ 3 := fun h => absurd (hflat h) (ne_of_gt hs)
    rw [executeTrade_sell _ _ _ _ _ _ hs]
    exact ⟨by show st.consecutive_losses + 1 ≤ 3; omega, fun _ => rfl⟩
  · exact ⟨by show (0 : Int) ≤ 3; decide,
      fun h => absurd (show (0 : Int) = 3 from h) (by decide)⟩
  · exact hbuy _ _ _ _ h3.1
  · exact hbuy _ _ _ _ h4.1
  · exact hbuy _ _ _ _ h5.1
  · exact hbuy _ _ _ _ h6.1
  · exact hsell _ _ _ _ h7.1
  · exact hsell _ _ _ _ h8.1
  · exact hsell _ _ _ _ h9.1
  · exact ⟨hle, hflat⟩

theorem backtestStep_locked (ind : Indicators) (price_data : List PriceData)
    (st : AdvancedTradingStrategy) (i : Nat) (h0 : st.shares = 0)
    (h3 : st.consecutive_losses = 3) :
    backtestStep ind price_data st i =
      { st with trade_history := st.trade_history ++ [holdSignal ind price_data st i] } := by
  have hb : ¬ buyAllowed ind st i = true := by
    intro h
    have hlt : st.consecutive_losses < 3 := (of_decide_eq_true h).2.2
    omega
  rw [backtestStep_flat _ _ _ _ h0, if_neg (fun h => hb h.1), if_neg (fun h => hb h.1),
    if_neg (fun h => hb h.1), if_neg (fun h => hb h.1)]

theorem backtestAfter_lockInv (sqrt : ℚ → ℚ) (initial_cash : ℚ)
    (price_data : List PriceData) (k : Nat) :
    LockInv (backtestAfter sqrt (AdvancedTradingStrategy.new initial_cash) price_data k) := by
  unfold backtestAfter
  apply forLoop_induction LockInv
  · exact ⟨by show (0 : Int) ≤ 3; decide, fun _ => rfl⟩
  · intro s i _ _ hs
    exact backtestStep_lockInv _ price_data s i hs

/-- C20: in a run of `backtest` from a fresh engine, `consecutive_losses` never exceeds 3
after any processed bar; once it is 3 the portfolio is flat, and every later bar only
appends a HOLD signal, leaving `cash`, `shares`, `entry_price` and `consecutive_losses`
as they were. -/
theorem backtest_lock_out (sqrt : ℚ → ℚ) (initial_cash : ℚ) (price_data : List PriceData) :
    (∀ k, 50 + k ≤ price_data.length →
      (backtestAfter sqrt (AdvancedTradingStrategy.new initial_cash) price_data
        k).consecutive_losses ≤ 3) ∧
    (∀ k, 50 + k ≤ price_data.length →
      (backtestAfter sqrt (AdvancedTradingStrategy.new initial_cash) price_data
        k).consecutive_losses = 3 →
      (backtestAfter sqrt (AdvancedTradingStrategy.new initial_cash) price_data k).shares = 0 ∧
      ∀ m, k ≤ m → 50 + m < price_data.length →
        backtestAfter sqrt (AdvancedTradingStrategy.new initial_cash) price_data (m + 1) =
          { backtestAfter sqrt (AdvancedTradingStrategy.new initial_cash) price_data m with
            trade_history :=
              (backtestAfter sqrt (AdvancedTradingStrategy.new initial_cash) price_data
                m).trade_history ++
              [holdSignal (backtestIndicators sqrt price_data) price_data
                (backtestAfter sqrt (AdvancedTradingStrategy.new initial_cash) price_data m)
                (50 + m)] }) := by
  refine ⟨fun k _ => (backtestAfter_lockInv sqrt initial_cash price_data k).1,
    fun k _ h3 => ?_⟩
  have hflat := (backtestAfter_lockInv sqrt initial_cash price_data k).2 h3
  refine ⟨hflat, ?_⟩
  have hkeep : ∀ m, k ≤ m →
      (backtestAfter sqrt (AdvancedTradingStrategy.new initial_cash) price_data m).shares = 0 ∧
      (backtestAfter sqrt (AdvancedTradingStrategy.new initial_cash) price_data
        m).consecutive_losses = 3 := by
    intro m hm
    induction m with
    | zero =>
      have hk0 : k = 0 := by omega
      subst hk0
      exact ⟨hflat, h3⟩
    | succ m ih =>
      by_cases hkm : k = m + 1
      · subst hkm
        exact ⟨hflat, h3⟩
      · obtain ⟨hs, hc⟩ := ih (by omega)
        rw [backtestAfter_succ, backtestStep_locked _ _ _ _ hs hc]
        exact ⟨hs, hc⟩
  intro m hm _
  obtain ⟨hs, hc⟩ := hkeep m hm
  rw [backtestAfter_succ, backtestStep_locked _ _ _ _ hs hc]

theorem lockBars_streak :
    (backtestAfter sqrtApprox (AdvancedTradingStrategy.new 100000) lockBars
      12).consecutive_losses = 3 := by
  decide!

/-! ### A strictly rising series -/

theorem forLoop_split {σ : Type} (a b c : Nat) (hab : a ≤ b) (hbc : b ≤ c)
    (body : σ → Nat → σ) (init : σ) :
    forLoop a c body init = forLoop b c body (forLoop a b body init) := by
  induction c with
  | zero =>
    have hb : b = 0 := by omega
    have ha : a = 0 := by omega
    subst hb ha
    rw [forLoop_zero, forLoop_zero]
  | succ c ih =>
    by_cases hbc2 : b ≤ c
    · rw [forLoop_succ a c (by omega), forLoop_succ b c hbc2, ih hbc2]
    · have hb : b = c + 1 := by omega
      subst hb
      rw [forLoop_zero]

theorem rsiLosses_increasing (P : List ℚ)
    (hinc : ∀ i, i + 1 < P.length → P.getD i 0 < P.getD (i + 1) 0) :
    ∀ x ∈ rsiLosses P, x = 0 := by
  unfold rsiLosses
  apply forLoop_induction (fun l : List ℚ => ∀ x ∈ l, x = 0)
  · intro x hx; simp at hx
  · intro s i h1 h2 hs x hx
    rw [List.mem_append, List.mem_singleton] at hx
    rcases hx with hx | hx
    · exact hs x hx
    · have h := hinc (i - 1) (by omega)
      have hi : i - 1 + 1 = i := by omega
      rw [hi] at h
      rw [hx, if_neg (by linarith)]

theorem getD_eq_zero_of_all_zero (l : List ℚ) (h : ∀ x ∈ l, x = 0) (k : Nat) :
    l.getD k 0 = 0 := by
  rw [List.getD_eq_getElem?_getD]
  cases hk : l[k]? with
  | none => rfl
  | some x => exact h x (List.getElem?_mem hk)

theorem rsiSeed_avg_loss_zero (gains losses : List ℚ) (period : Int) (rsi : List ℚ)
    (hl : ∀ x ∈ losses, x = 0) : (rsiSeed gains losses period rsi).avg_loss = 0 := by
  have hs : (fun a : ℚ × ℚ => a.2 = 0)
      (forLoop 0 period.toNat
        (fun (a : ℚ × ℚ) i => (a.1 + gains.getD i 0, a.2 + losses.getD i 0)) (0, 0)) := by
    apply forLoop_induction (fun a : ℚ × ℚ => a.2 = 0)
    · rfl
    · intro s i _ _ hs
      show s.2 + losses.getD i 0 = 0
      rw [hs, getD_eq_zero_of_all_zero losses hl, add_zero]
  show _ / (period : ℚ) = 0
  rw [hs, zero_div]

theorem rsiStep_avg_loss_zero (gains losses : List ℚ) (period : Int) (s : RSIState) (i : Nat)
    (hl : ∀ x ∈ losses, x = 0) (hs : s.avg_loss = 0) :
    (rsiStep gains losses period s i).avg_loss = 0 := by
  unfold rsiStep
  dsimp only
  split_ifs with h1 h2
  · exact h2
  · exact absurd (by rw [hs, getD_eq_zero_of_all_zero losses hl]; simp) h2
  · exact hs

theorem rsiStep_set_hundred (gains losses : List ℚ) (period : Int) (s : RSIState) (i : Nat)
    (hl : ∀ x ∈ losses, x = 0) (hs : s.avg_loss = 0)
    (hg : toSizeT ((i : Int) - 1) < gains.length) (hi : i < s.rsi.length) :
    (rsiStep gains losses period s i).rsi[i]? = some 100 := by
  have hz : (s.avg_loss * ((period - 1 : Int) : ℚ) +
      losses.getD (toSizeT ((i : Int) - 1)) 0) / (period : ℚ) = 0 := by
    rw [hs, getD_eq_zero_of_all_zero losses hl]; simp
  unfold rsiStep
  dsimp only
  rw [if_pos hg, if_pos hz]
  exact List.getElem?_set_self hi

theorem calculateRSI_increasing (P : List ℚ) (p : Nat) (hp : 1 ≤ p)
    (hinc : ∀ i, i + 1 < P.length → P.getD i 0 < P.getD (i + 1) 0)
    (i : Nat) (hpi : p ≤ i) (hi : i < P.length) :
    (calculateRSI P (p : Int)).getD i 0 = 100 := by
  have hl := rsiLosses_increasing P hinc
  unfold calculateRSI
  simp only [toSizeT_natCast]
  rw [if_neg (by omega), forLoop_split p i P.length hpi (by omega),
    forLoop_left i P.length hi, List.getD_eq_getElem?_getD,
    (rsiLoop_frame _ _ _ (i + 1) P.length _ i (by omega)).1]
  have hinv : (forLoop p i (rsiStep (rsiGains P) (rsiLosses P) (p : Int))
      (rsiSeed (rsiGains P) (rsiLosses P) (p : Int)
        (List.replicate P.length (50 : ℚ)))).avg_loss = 0 := by
    apply forLoop_induction (fun s : RSIState => s.avg_loss = 0)
    · exact rsiSeed_avg_loss_zero _ _ _ _ hl
    · intro s j _ _ hs
      exact rsiStep_avg_loss_zero _ _ _ s j hl hs
  have hlen : (forLoop p i (rsiStep (rsiGains P) (rsiLosses P) (p : Int))
      (rsiSeed (rsiGains P) (rsiLosses P) (p : Int)
        (List.replicate P.length (50 : ℚ)))).rsi.length = P.length := by
    by_cases h0 : 0 < p
    · rw [(rsiLoop_frame _ _ _ p i _ 0 h0).2]
      simp [rsiSeed]
    · omega
  have hsz : toSizeT ((i : Int) - 1) = i - 1 := by
    rw [toSizeT_of_nonneg _ (by omega)]; omega
  rw [rsiStep_set_hundred _ _ _ _ i hl hinv (by rw [hsz, rsiGains_length]; omega)
    (by rw [hlen]; exact hi)]
  rfl

theorem backtestStep_hold_of_rsi (ind : Indicators) (price_data : List PriceData)
    (st : AdvancedTradingStrategy) (i : Nat) (h0 : st.shares = 0)
    (hr : ind.rsi.getD i 0 = 100) :
    backtestStep ind price_data st i =
      { st with trade_history := st.trade_history ++ [holdSignal ind price_data st i] } := by
  have h1 : ¬ buySignal1 ind i = true := by
    intro h
    have := ((buySignal1_iff ind i).1 h).1
    rw [hr] at this
    norm_num at this
  have h2 : ¬ buySignal2 ind i = true := by
    intro h
    have := ((buySignal2_iff ind i).1 h).2.2.1
    rw [hr] at this
    norm_num at this
  have h3 : ¬ buySignal3 ind i = true := by
    intro h
    have := ((buySignal3_iff ind i).1 h).2.1
    rw [hr] at this
    norm_num at this
  have h4 : ¬ buySignal4 ind i = true := by
    intro h
    have := ((buySignal4_iff ind i).1 h).1
    rw [hr] at this
    norm_num at this
  rw [backtestStep_flat _ _ _ _ h0, if_neg (fun h => h1 h.2), if_neg (fun h => h2 h.2),
    if_neg (fun h => h3 h.2), if_neg (fun h => h4 h.2)]

/-- C12: for every strictly increasing series of at least 50 bars, `backtest` on a fresh
engine logs only HOLD signals, each with `rsi = 100`, and ends with `shares = 0` and
`cash` equal to the initial capital. -/
theorem backtest_monotone_rise (sqrt : ℚ → ℚ) (initial_cash : ℚ)
    (price_data : List PriceData) (hlen : 50 ≤ price_data.length)
    (hinc : ∀ i, i + 1 < price_data.length →
      (price_data.getD i {}).close < (price_data.getD (i + 1) {}).close) :
    (∀ e ∈ (backtest sqrt (AdvancedTradingStrategy.new initial_cash)
        price_data).2.trade_history, e.action = "HOLD" ∧ e.rsi = 100) ∧
    (backtest sqrt (AdvancedTradingStrategy.new initial_cash) price_data).2.shares = 0 ∧
    (backtest sqrt (AdvancedTradingStrategy.new initial_cash) price_data).2.cash =
      initial_cash := by
  have hP : ∀ i, i + 1 < (price_data.map (fun data => data.close)).length →
      (price_data.map (fun data => data.close)).getD i 0 <
        (price_data.map (fun data => data.close)).getD (i + 1) 0 := by
    intro i hi
    rw [prices_getD, prices_getD]
    exact hinc i (by simpa using hi)
  have hrsi : ∀ i, 50 ≤ i → i < price_data.length →
      (backtestIndicators sqrt price_data).rsi.getD i 0 = 100 := by
    intro i h1 h2
    exact calculateRSI_increasing (price_data.map (fun data => data.close)) 14 (by decide)
      hP i (by omega) (by simpa using h2)
  have hinv : (fun st : AdvancedTradingStrategy =>
      (∀ e ∈ st.trade_history, e.action = "HOLD" ∧ e.rsi = 100) ∧ st.shares = 0 ∧
        st.cash = initial_cash)
      (forLoop 50 price_data.length
        (backtestStep (backtestIndicators sqrt price_data) price_data)
        (AdvancedTradingStrategy.new initial_cash)) := by
    apply forLoop_induction (fun st : AdvancedTradingStrategy =>
      (∀ e ∈ st.trade_history, e.action = "HOLD" ∧ e.rsi = 100) ∧ st.shares = 0 ∧
        st.cash = initial_cash)
    · exact ⟨fun e he => absurd he (List.not_mem_nil e), rfl, rfl⟩
    · intro s i h1 h2 hs
      obtain ⟨hlog, hsh, hc⟩ := hs
      rw [backtestStep_hold_of_rsi _ _ _ _ hsh (hrsi i h1 h2)]
      refine ⟨fun e he => ?_, hsh, hc⟩
      rw [List.mem_append, List.mem_singleton] at he
      rcases he with he | he
      · exact hlog e he
      · rw [he]
        exact ⟨rfl, hrsi i h1 h2⟩
  unfold backtest
  rw [if_neg (by omega)]
  exact hinv

theorem risingBars_close (i : Nat) (hi : i < 60) :
    (risingBars.getD i {}).close = (i : ℚ) + 100 := by
  unfold risingBars
  rw [List.getD_eq_getElem?_getD, List.getElem?_map, List.getElem?_range hi]
  rfl

theorem risingBars_increasing : ∀ i, i + 1 < risingBars.length →
    (risingBars.getD i {}).close < (risingBars.getD (i + 1) {}).close := by
  intro i hi
  have h60 : risingBars.length = 60 := by simp [risingBars]
  rw [h60] at hi
  rw [risingBars_close i (by omega), risingBars_close (i + 1) hi]
  push_cast
  linarith

/-- Witness for C12: closes `100, 101, ..., 159` with an initial capital of `100000`. -/
theorem backtest_monotone_rise_witness :
    50 ≤ risingBars.length ∧
    (∀ i, i + 1 < risingBars.length →
      (risingBars.getD i {}).close < (risingBars.getD (i + 1) {}).close) ∧
    (∀ e ∈ (backtest sqrtApprox (AdvancedTradingStrategy.new 100000)
        risingBars).2.trade_history, e.action = "HOLD" ∧ e.rsi = 100) ∧
    (backtest sqrtApprox (AdvancedTradingStrategy.new 100000) risingBars).2.shares = 0 ∧
    (backtest sqrtApprox (AdvancedTradingStrategy.new 100000) risingBars).2.cash = 100000 :=
  ⟨risingBars_length, risingBars_increasing,
    backtest_monotone_rise sqrtApprox 100000 risingBars risingBars_length
      risingBars_increasing⟩

/-! ### In-range reads and writes -/

theorem readAt_of_lt (v : List ℚ) (i : Nat) (h : i < v.length) :
    readAt v i = some (v.getD i 0) := by
  unfold readAt
  rw [List.getD_eq_getElem?_getD, List.getElem?_eq_getElem h]
  rfl

theorem writeAt_of_lt (v : List ℚ) (i : Nat) (x : ℚ) (h : i < v.length) :
    writeAt v i x = some (v.set i x) := by
  unfold writeAt
  rw [if_pos h]

theorem forLoopChecked_empty {σ : Type} (a b : Nat) (hab : b ≤ a) (body : σ → Nat → Option σ)
    (init : σ) : forLoopChecked a b body init = some init := by
  unfold forLoopChecked
  have h : b - a = 0 := by omega
  rw [h]
  rfl

theorem forLoopChecked_succ {σ : Type} (a b : Nat) (hab : a ≤ b) (body : σ → Nat → Option σ)
    (init : σ) :
    forLoopChecked a (b + 1) body init =
      (forLoopChecked a b body init).bind (fun s => body s b) := by
  unfold forLoopChecked
  have h : b + 1 - a = (b - a) + 1 := by omega
  have hb : a + (b - a) = b := by omega
  rw [h, List.range'_1_concat, List.foldlM_append, hb]
  cases List.foldlM body init (List.range' a (b - a)) with
  | none => rfl
  | some s => simp [List.foldlM]

theorem forLoopChecked_eq_some {σ : Type} (Inv : σ → Prop) (a b : Nat)
    (bodyC : σ → Nat → Option σ) (body : σ → Nat → σ) (init : σ) (h0 : Inv init)
    (hstep : ∀ s i, a ≤ i → i < b → Inv s → bodyC s i = some (body s i) ∧ Inv (body s i)) :
    forLoopChecked a b bodyC init = some (forLoop a b body init) ∧
      Inv (forLoop a b body init) := by
  induction b with
  | zero =>
    rw [forLoopChecked_empty a 0 (Nat.zero_le a), forLoop_empty a 0 (Nat.zero_le a)]
    exact ⟨rfl, h0⟩
  | succ b ih =>
    by_cases hab : a ≤ b
    · obtain ⟨h1, h2⟩ := ih (fun s i hi1 hi2 hs => hstep s i hi1 (Nat.lt_succ_of_lt hi2) hs)
      obtain ⟨h3, h4⟩ := hstep _ b hab (Nat.lt_succ_self b) h2
      rw [forLoopChecked_succ a b hab, forLoop_succ a b hab, h1]
      exact ⟨h3, h4⟩
    · rw [forLoopChecked_empty a (b + 1) (by omega), forLoop_empty a (b + 1) (by omega)]
      exact ⟨rfl, h0⟩

theorem windowSumChecked_eq (P : List ℚ) (p i : Nat) (h1 : p ≤ i + 1) (h2 : i < P.length) :
    windowSumChecked P (p : Int) i = some (windowSum P (p : Int) i) := by
  unfold windowSumChecked windowSum
  refine (forLoopChecked_eq_some (fun _ => True) 0 _ _ _ 0 trivial ?_).1
  intro s j _ hj _
  rw [Int.toNat_natCast] at hj
  rw [toSizeT_sub i j (by omega), readAt_of_lt P (i - j) (by omega)]
  exact ⟨rfl, trivial⟩

theorem calculateSMAChecked_eq (P : List ℚ) (p : Nat) (hp : 1 ≤ p) :
    calculateSMAChecked P (p : Int) = some (calculateSMA P (p : Int)) := by
  unfold calculateSMAChecked calculateSMA
  simp only [toSizeT_natCast, toSizeT_pred p hp]
  split_ifs with h
  · rfl
  · refine (forLoopChecked_eq_some (fun l : List ℚ => l.length = P.length) _ _ _ _ _
      (by simp) ?_).1
    intro s i h1 h2 hs
    rw [windowSumChecked_eq P p i (by omega) h2]
    exact ⟨writeAt_of_lt s i _ (by rw [hs]; exact h2), by simpa using hs⟩

theorem calculateEMAChecked_eq (P : List ℚ) (period : Int) :
    calculateEMAChecked P period = some (calculateEMA P period) := by
  unfold calculateEMAChecked calculateEMA
  dsimp only
  split_ifs with h
  · rfl
  · have hpos : 0 < P.length := by
      cases P with
      | nil => exact absurd rfl h
      | cons a t => simp
    rw [readAt_of_lt P 0 hpos, Option.some_bind,
      writeAt_of_lt _ 0 _ (by simpa using hpos), Option.some_bind]
    refine (forLoopChecked_eq_some (fun l : List ℚ => l.length = P.length) _ _ _ _ _
      (by simp) ?_).1
    intro s i h1 h2 hs
    rw [readAt_of_lt P i h2, Option.some_bind, readAt_of_lt s (i - 1) (by omega),
      Option.some_bind]
    exact ⟨writeAt_of_lt s i _ (by rw [hs]; exact h2), by simpa using hs⟩

theorem rsiLosses_length (P : List ℚ) : (rsiLosses P).length = P.length - 1 := by
  unfold rsiLosses
  generalize P.length = n
  induction n with
  | zero => rw [forLoop_empty 1 0 (by omega)]; rfl
  | succ n ih =>
    by_cases hn : 1 ≤ n
    · rw [forLoop_succ 1 n hn, List.length_append, ih]
      simp
      omega
    · rw [forLoop_empty 1 (n + 1) (by omega)]
      simp
      omega

theorem rsiGainsChecked_eq (P : List ℚ) : rsiGainsChecked P = some (rsiGains P) := by
  unfold rsiGainsChecked rsiGains
  refine (forLoopChecked_eq_some (fun _ => True) 1 _ _ _ [] trivial ?_).1
  intro s i h1 h2 _
  rw [readAt_of_lt P i h2, Option.some_bind, readAt_of_lt P (i - 1) (by omega),
    Option.some_bind]
  exact ⟨rfl, trivial⟩

theorem rsiLossesChecked_eq (P : List ℚ) : rsiLossesChecked P = some (rsiLosses P) := by
  unfold rsiLossesChecked rsiLosses
  refine (forLoopChecked_eq_some (fun _ => True) 1 _ _ _ [] trivial ?_).1
  intro s i h1 h2 _
  rw [readAt_of_lt P i h2, Option.some_bind, readAt_of_lt P (i - 1) (by omega),
    Option.some_bind]
  exact ⟨rfl, trivial⟩

theorem rsiSeedChecked_eq (gains losses : List ℚ) (p : Nat) (rsi : List ℚ)
    (hg : p ≤ gains.length) (hl : p ≤ losses.length) :
    rsiSeedChecked gains losses (p : Int) rsi = some (rsiSeed gains losses (p : Int) rsi) := by
  unfold rsiSeedChecked rsiSeed
  rw [(forLoopChecked_eq_some (fun _ => True) 0 _ _
    (fun (a : ℚ × ℚ) i => (a.1 + gains.getD i 0, a.2 + losses.getD i 0)) (0, 0) trivial ?_).1]
  · rfl
  · intro s i _ h2 _
    rw [Int.toNat_natCast] at h2
    rw [readAt_of_lt gains i (by omega), Option.some_bind, readAt_of_lt losses i (by omega),
      Option.some_bind]
    exact ⟨rfl, trivial⟩

theorem rsiStepChecked_eq (gains losses : List ℚ) (period : Int) (s : RSIState) (i : Nat)
    (hgl : gains.length = losses.length) (hi : i < s.rsi.length) :
    rsiStepChecked gains losses period s i = some (rsiStep gains losses period s i) := by
  unfold rsiStepChecked rsiStep
  by_cases hc : toSizeT ((i : Int) - 1) < gains.length
  · rw [if_pos hc, if_pos hc, readAt_of_lt gains _ hc, Option.some_bind,
      readAt_of_lt losses _ (by rw [← hgl]; exact hc), Option.some_bind]
    dsimp only
    split_ifs
    · rw [writeAt_of_lt _ _ _ hi, Option.some_bind]
    · rw [writeAt_of_lt _ _ _ hi, Option.some_bind]
  · rw [if_neg hc, if_neg hc]

theorem calculateRSIChecked_eq (P : List ℚ) (p : Nat) :
    calculateRSIChecked P (p : Int) = some (calculateRSI P (p : Int)) := by
  unfold calculateRSIChecked calculateRSI
  simp only [toSizeT_natCast]
  split_ifs with h
  · rfl
  · have hgl : (rsiGains P).length = (rsiLosses P).length := by
      rw [rsiGains_length, rsiLosses_length]
    rw [rsiGainsChecked_eq, Option.some_bind, rsiLossesChecked_eq, Option.some_bind,
      rsiSeedChecked_eq _ _ p _ (by rw [rsiGains_length]; omega)
        (by rw [rsiLosses_length]; omega), Option.some_bind,
      (forLoopChecked_eq_some (fun s : RSIState => s.rsi.length = P.length) p P.length
        (rsiStepChecked (rsiGains P) (rsiLosses P) (p : Int))
        (rsiStep (rsiGains P) (rsiLosses P) (p : Int)) _ (by simp [rsiSeed]) ?_).1,
      Option.some_bind]
    intro s i _ h2 hs
    exact ⟨rsiStepChecked_eq _ _ _ s i hgl (by rw [hs]; exact h2),
      by show (rsiStep _ _ _ s i).rsi.length = _; rw [rsiStep_length]; exact hs⟩

theorem calculateMACDChecked_eq (P : List ℚ) (fast slow signalPeriod : Int) :
    calculateMACDChecked P fast slow signalPeriod =
      some (calculateMACD P fast slow signalPeriod) := by
  have hm := forLoopChecked_eq_some (fun l : List ℚ => l.length = P.length) 0 P.length
    (fun macd i => (readAt (calculateEMA P fast) i).bind (fun a =>
      (readAt (calculateEMA P slow) i).bind (fun b => writeAt macd i (a - b))))
    (fun macd i => macd.set i ((calculateEMA P fast).getD i 0 - (calculateEMA P slow).getD i 0))
    (List.replicate P.length (0 : ℚ)) (by simp)
    (by
      intro s i _ h2 hs
      dsimp only
      rw [readAt_of_lt _ i (by rw [calculateEMA_length]; exact h2), Option.some_bind,
        readAt_of_lt _ i (by rw [calculateEMA_length]; exact h2), Option.some_bind]
      exact ⟨writeAt_of_lt s i _ (by rw [hs]; exact h2), by simpa using hs⟩)
  unfold calculateMACDChecked calculateMACD
  dsimp only
  rw [calculateEMAChecked_eq, Option.some_bind, calculateEMAChecked_eq, Option.some_bind,
    hm.1, Option.some_bind, calculateEMAChecked_eq, Option.some_bind,
    (forLoopChecked_eq_some (fun l : List ℚ => l.length = P.length) 0 P.length _
      (fun histogram i => histogram.set i (_ - _)) _ (by simp) ?_).1, Option.some_bind]
  intro s i _ h2 hs
  rw [readAt_of_lt _ i (by rw [hm.2]; exact h2), Option.some_bind,
    readAt_of_lt _ i (by rw [calculateEMA_length, hm.2]; exact h2), Option.some_bind]
  exact ⟨writeAt_of_lt s i _ (by rw [hs]; exact h2), by simpa using hs⟩

theorem windowVarianceChecked_eq (P : List ℚ) (p i : Nat) (h1 : p ≤ i + 1)
    (h2 : i < P.length) (m : ℚ) :
    windowVarianceChecked P (p : Int) i m = some (windowVariance P (p : Int) i m) := by
  unfold windowVarianceChecked windowVariance
  refine (forLoopChecked_eq_some (fun _ => True) 0 _ _ _ 0 trivial ?_).1
  intro s j _ hj _
  rw [Int.toNat_natCast] at hj
  rw [toSizeT_sub i j (by omega), readAt_of_lt P (i - j) (by omega)]
  exact ⟨rfl, trivial⟩

theorem calculateBollingerBandsChecked_eq (sqrt : ℚ → ℚ) (P : List ℚ) (p : Nat) (hp : 1 ≤ p)
    (k : ℚ) :
    calculateBollingerBandsChecked sqrt P (p : Int) k =
      some (calculateBollingerBands sqrt P (p : Int) k) := by
  unfold calculateBollingerBandsChecked calculateBollingerBands
  simp only [toSizeT_pred p hp]
  refine (forLoopChecked_eq_some (fun l : List ℚ => l.length = P.length) _ _ _ _ _
    (by simp) ?_).1
  intro s i h1 h2 hs
  rw [windowSumChecked_eq P p i (by omega) h2, Option.some_bind,
    windowVarianceChecked_eq P p i (by omega) h2, Option.some_bind]
  exact ⟨writeAt_of_lt s i _ (by rw [hs]; exact h2), by simpa using hs⟩

theorem calculateSMA_length (P : List ℚ) (period : Int) :
    (calculateSMA P period).length = P.length := by
  unfold calculateSMA
  dsimp only
  split_ifs
  · simp
  · rw [forLoop_set_length (fun _ i => windowSum P period i / (period : ℚ))]
    simp

theorem calculateRSI_length (P : List ℚ) (period : Int) :
    (calculateRSI P period).length = P.length := by
  unfold calculateRSI
  dsimp only
  split_ifs
  · simp
  · apply forLoop_induction (fun s : RSIState => s.rsi.length = P.length)
    · simp [rsiSeed]
    · intro s i _ _ hs
      show (rsiStep _ _ _ s i).rsi.length = _
      rw [rsiStep_length]
      exact hs

theorem calculateBollingerBands_length (sqrt : ℚ → ℚ) (P : List ℚ) (period : Int) (k : ℚ) :
    (calculateBollingerBands sqrt P period k).length = P.length := by
  unfold calculateBollingerBands
  rw [forLoop_set_length (fun _ i => _ - _)]
  simp

theorem calculateMACD_lengths (P : List ℚ) (fast slow signalPeriod : Int) :
    (calculateMACD P fast slow signalPeriod).macd.length = P.length ∧
    (calculateMACD P fast slow signalPeriod).signal.length = P.length ∧
    (calculateMACD P fast slow signalPeriod).histogram.length = P.length := by
  have hm : (forLoop 0 P.length
      (fun macd i => macd.set i ((calculateEMA P fast).getD i 0 - (calculateEMA P slow).getD i 0))
      (List.replicate P.length (0 : ℚ))).length = P.length := by
    rw [forLoop_set_length
      (fun _ i => (calculateEMA P fast).getD i 0 - (calculateEMA P slow).getD i 0)]
    simp
  unfold calculateMACD
  dsimp only
  refine ⟨hm, ?_, ?_⟩
  · rw [calculateEMA_length, hm]
  · rw [forLoop_set_length (fun _ i => _ - _)]
    simp

theorem backtestIndicators_lengths (sqrt : ℚ → ℚ) (price_data : List PriceData) :
    ∀ v ∈ [(backtestIndicators sqrt price_data).prices,
        (backtestIndicators sqrt price_data).rsi,
        (backtestIndicators sqrt price_data).rsi_short,
        (backtestIndicators sqrt price_data).macd_result.macd,
        (backtestIndicators sqrt price_data).macd_result.signal,
        (backtestIndicators sqrt price_data).macd_result.histogram,
        (backtestIndicators sqrt price_data).sma_20,
        (backtestIndicators sqrt price_data).sma_50,
        (backtestIndicators sqrt price_data).bb_lower],
      v.length = price_data.length := by
  have hP : (price_data.map (fun data => data.close)).length = price_data.length :=
    List.length_map _ _
  intro v hv
  simp only [List.mem_cons, List.mem_singleton, List.not_mem_nil, or_false] at hv
  unfold backtestIndicators at hv
  dsimp only at hv
  rcases hv with h | h | h | h | h | h | h | h | h <;> rw [h]
  · exact hP
  · rw [calculateRSI_length, hP]
  · rw [calculateRSI_length, hP]
  · rw [(calculateMACD_lengths _ _ _ _).1, hP]
  · rw [(calculateMACD_lengths _ _ _ _).2.1, hP]
  · rw [(calculateMACD_lengths _ _ _ _).2.2, hP]
  · rw [calculateSMA_length, hP]
  · rw [calculateSMA_length, hP]
  · rw [calculateBollingerBands_length, hP]

/-- C18: for every price list and every period `≥ 1`, the five indicator functions with
every vector access checked return the same result as the total functions, i.e. no read
or write is out of range; and in a series of `n` bars each of the nine sequences
read by the loop of `backtest` has length `n`, so the reads at `i` and `i - 1` for
`50 ≤ i < n` are in range. -/
theorem indicator_reads_in_range (sqrt : ℚ → ℚ) (P : List ℚ) (p : Nat) (hp : 1 ≤ p)
    (fast slow signalPeriod : Int) (k : ℚ) (price_data : List PriceData) :
    calculateSMAChecked P (p : Int) = some (calculateSMA P (p : Int)) ∧
    calculateEMAChecked P (p : Int) = some (calculateEMA P (p : Int)) ∧
    calculateRSIChecked P (p : Int) = some (calculateRSI P (p : Int)) ∧
    calculateMACDChecked P fast slow signalPeriod =
      some (calculateMACD P fast slow signalPeriod) ∧
    calculateBollingerBandsChecked sqrt P (p : Int) k =
      some (calculateBollingerBands sqrt P (p : Int) k) ∧
    ∀ v ∈ [(backtestIndicators sqrt price_data).prices,
        (backtestIndicators sqrt price_data).rsi,
        (backtestIndicators sqrt price_data).rsi_short,
        (backtestIndicators sqrt price_data).macd_result.macd,
        (backtestIndicators sqrt price_data).macd_result.signal,
        (backtestIndicators sqrt price_data).macd_result.histogram,
        (backtestIndicators sqrt price_data).sma_20,
        (backtestIndicators sqrt price_data).sma_50,
        (backtestIndicators sqrt price_data).bb_lower],
      v.length = price_data.length ∧
      ∀ i, 50 ≤ i → i < price_data.length →
        readAt v i = some (v.getD i 0) ∧ readAt v (i - 1) = some (v.getD (i - 1) 0) := by
  refine ⟨calculateSMAChecked_eq P p hp, calculateEMAChecked_eq P p,
    calculateRSIChecked_eq P p, calculateMACDChecked_eq P fast slow signalPeriod,
    calculateBollingerBandsChecked_eq sqrt P p hp k, fun v hv => ?_⟩
  have hv := backtestIndicators_lengths sqrt price_data v hv
  refine ⟨hv, fun i h1 h2 => ⟨readAt_of_lt v i (by omega), readAt_of_lt v (i - 1) (by omega)⟩⟩

theorem indicator_checked_example :
    calculateSMAChecked [1, 2, 3] (-1) = some [0, 0, 0] ∧
    calculateRSIChecked [1, 2, 3, 2, 5, 4, 7] 3 =
      some [50, 50, 50, 400 / 9, 700 / 9, 7000 / 117, 38300 / 477] ∧
    windowSumChecked [1, 2, 3] 3 1 = none := by
  decide!

/-- Witness for C18: prices `1, 2, 3` with period `2`, MACD periods `12, 26, 9`,
multiplier `2`, and the series `tradeBars`. -/
theorem indicator_reads_in_range_witness :
    1 ≤ 2 ∧
    calculateSMAChecked [1, 2, 3] ((2 : Nat) : Int) = some (calculateSMA [1, 2, 3] ((2 : Nat) : Int)) ∧
    calculateEMAChecked [1, 2, 3] ((2 : Nat) : Int) = some (calculateEMA [1, 2, 3] ((2 : Nat) : Int)) ∧
    calculateRSIChecked [1, 2, 3] ((2 : Nat) : Int) = some (calculateRSI [1, 2, 3] ((2 : Nat) : Int)) ∧
    calculateMACDChecked [1, 2, 3] 12 26 9 = some (calculateMACD [1, 2, 3] 12 26 9) ∧
    calculateBollingerBandsChecked sqrtApprox [1, 2, 3] ((2 : Nat) : Int) 2 =
      some (calculateBollingerBands sqrtApprox [1, 2, 3] ((2 : Nat) : Int) 2) ∧
    ∀ v ∈ [(backtestIndicators sqrtApprox tradeBars).prices,
        (backtestIndicators sqrtApprox tradeBars).rsi,
        (backtestIndicators sqrtApprox tradeBars).rsi_short,
        (backtestIndicators sqrtApprox tradeBars).macd_result.macd,
        (backtestIndicators sqrtApprox tradeBars).macd_result.signal,
        (backtestIndicators sqrtApprox tradeBars).macd_result.histogram,
        (backtestIndicators sqrtApprox tradeBars).sma_20,
        (backtestIndicators sqrtApprox tradeBars).sma_50,
        (backtestIndicators sqrtApprox tradeBars).bb_lower],
      v.length = tradeBars.length ∧
      ∀ i, 50 ≤ i → i < tradeBars.length →
        readAt v i = some (v.getD i 0) ∧ readAt v (i - 1) = some (v.getD (i - 1) 0) :=
  ⟨by decide, indicator_reads_in_range sqrtApprox [1, 2, 3] 2 (by decide) 12 26 9 2 tradeBars⟩

/-! ### Single bars on concrete inputs -/

/-- Witness for C11: the series `tradeBars` from an initial cash of `100000`. -/
theorem backtest_log_shape_witness :
    50 ≤ tradeBars.length ∧
    (backtest sqrtApprox (AdvancedTradingStrategy.new 100000)
      tradeBars).2.trade_history.length = tradeBars.length - 50 ∧
    ∀ k, 50 + k < tradeBars.length →
      ∃ e, (backtest sqrtApprox (AdvancedTradingStrategy.new 100000)
          tradeBars).2.trade_history[k]? = some e ∧
        e.date = (tradeBars.getD (50 + k) {}).date ∧
        e.price = (tradeBars.getD (50 + k) {}).close ∧
        e.rsi = (calculateRSI (tradeBars.map (fun data => data.close)) 14).getD (50 + k) 0 ∧
        e.macd =
          (calculateMACD (tradeBars.map (fun data => data.close)) 12 26 9).macd.getD
            (50 + k) 0 ∧
        e.signal =
          (calculateMACD (tradeBars.map (fun data => data.close)) 12 26 9).signal.getD
            (50 + k) 0 ∧
        (e.action = "BUY" ∨ e.action = "SELL" ∨ e.action = "HOLD") ∧
        e.portfolio_value =
          (backtestAfter sqrtApprox (AdvancedTradingStrategy.new 100000) tradeBars
            (k + 1)).cash +
          (backtestAfter sqrtApprox (AdvancedTradingStrategy.new 100000) tradeBars
            (k + 1)).shares * (tradeBars.getD (50 + k) {}).close :=
  ⟨tradeBars_length, backtest_log_shape sqrtApprox 100000 tradeBars tradeBars_length⟩

/-- Witness for C13: bar 59 of `tradeBars` (close `70`) in `holdingState`, a position
entered at `81`. -/
theorem backtestStep_stop_loss_witness :
    (0 < holdingState.shares ∧ 0 < holdingState.entry_price ∧
      ((tradeBars.getD 59 {}).close - holdingState.entry_price) /
        holdingState.entry_price ≤ -(8 / 100)) ∧
    backtestStep (backtestIndicators sqrtApprox tradeBars) tradeBars holdingState 59 =
      { cash := holdingState.cash +
          holdingState.shares * (tradeBars.getD 59 {}).close,
        shares := 0,
        initial_capital := holdingState.initial_capital,
        trade_history := holdingState.trade_history ++
          [{ date := (tradeBars.getD 59 {}).date, action := "SELL",
             price := (tradeBars.getD 59 {}).close,
             rsi := (backtestIndicators sqrtApprox tradeBars).rsi.getD 59 0,
             macd := (backtestIndicators sqrtApprox tradeBars).macd_result.macd.getD 59 0,
             signal := (backtestIndicators sqrtApprox tradeBars).macd_result.signal.getD 59 0,
             portfolio_value := holdingState.cash +
               holdingState.shares * (tradeBars.getD 59 {}).close,
             reason := "Stop Loss" }],
        entry_price := 0,
        consecutive_losses := holdingState.consecutive_losses + 1 } :=
  ⟨⟨by decide!, by decide!, by decide!⟩,
    backtestStep_stop_loss sqrtApprox tradeBars holdingState 59 (by decide!) (by decide!)
      (by decide!)⟩

/-- Witness for C14: bar 58 of `profitBars` (close `92`) in `holdingState`, a position
entered at `81`. -/
theorem backtestStep_take_profit_witness :
    (0 < holdingState.shares ∧ 0 < holdingState.entry_price ∧
      ((profitBars.getD 58 {}).close - holdingState.entry_price) /
        holdingState.entry_price ≥ 12 / 100) ∧
    backtestStep (backtestIndicators sqrtApprox profitBars) profitBars holdingState 58 =
      { cash := holdingState.cash +
          holdingState.shares * (profitBars.getD 58 {}).close,
        shares := 0,
        initial_capital := holdingState.initial_capital,
        trade_history := holdingState.trade_history ++
          [{ date := (profitBars.getD 58 {}).date, action := "SELL",
             price := (profitBars.getD 58 {}).close,
             rsi := (backtestIndicators sqrtApprox profitBars).rsi.getD 58 0,
             macd := (backtestIndicators sqrtApprox profitBars).macd_result.macd.getD 58 0,
             signal :=
               (backtestIndicators sqrtApprox profitBars).macd_result.signal.getD 58 0,
             portfolio_value := holdingState.cash +
               holdingState.shares * (profitBars.getD 58 {}).close,
             reason := "Take Profit" }],
        entry_price := 0,
        consecutive_losses := 0 } :=
  ⟨⟨by decide!, by decide!, by decide!⟩,
    backtestStep_take_profit sqrtApprox profitBars holdingState 58 (by decide!) (by decide!)
      (by decide!)⟩

/-- Witness for C15: a BUY at bar 55 of `tradeBars` (close `81`) from the fresh state
with a cash of `100000`. -/
theorem executeTrade_buy_sizing_witness :
    (0 < (tradeBars.getD 55 {}).close ∧ (AdvancedTradingStrategy.new 100000).shares = 0 ∧
      (AdvancedTradingStrategy.new 100000).cash > (tradeBars.getD 55 {}).close) ∧
    (executeTrade (AdvancedTradingStrategy.new 100000) (tradeBars.getD 55 {}) "BUY"
        "BB Lower Bounce + RSI Oversold" 0 0 0).shares =
      90 / 100 * (AdvancedTradingStrategy.new 100000).cash / (tradeBars.getD 55 {}).close ∧
    (executeTrade (AdvancedTradingStrategy.new 100000) (tradeBars.getD 55 {}) "BUY"
        "BB Lower Bounce + RSI Oversold" 0 0 0).entry_price = (tradeBars.getD 55 {}).close ∧
    (executeTrade (AdvancedTradingStrategy.new 100000) (tradeBars.getD 55 {}) "BUY"
        "BB Lower Bounce + RSI Oversold" 0 0 0).cash =
      (AdvancedTradingStrategy.new 100000).cash -
        (executeTrade (AdvancedTradingStrategy.new 100000) (tradeBars.getD 55 {}) "BUY"
          "BB Lower Bounce + RSI Oversold" 0 0 0).shares * (tradeBars.getD 55 {}).close ∧
    (executeTrade (AdvancedTradingStrategy.new 100000) (tradeBars.getD 55 {}) "BUY"
        "BB Lower Bounce + RSI Oversold" 0 0 0).cash = 10 / 100 * (AdvancedTradingStrategy.new 100000).cash ∧
    0 < (executeTrade (AdvancedTradingStrategy.new 100000) (tradeBars.getD 55 {}) "BUY"
        "BB Lower Bounce + RSI Oversold" 0 0 0).cash :=
  ⟨⟨by decide!, rfl, by decide!⟩,
    executeTrade_buy_sizing (AdvancedTradingStrategy.new 100000) (tradeBars.getD 55 {})
      "BB Lower Bounce + RSI Oversold" 0 0 0 (by decide!) rfl (by decide!)⟩

/-- Witness for C16: bar 55 of `tradeBars` in the fresh state with a cash of `100000`. -/
theorem backtestStep_entry_decision_witness :
    (AdvancedTradingStrategy.new 100000).shares = 0 ∧
    ∃ e, (backtestStep (backtestIndicators sqrtApprox tradeBars) tradeBars
          (AdvancedTradingStrategy.new 100000) 55).trade_history =
        (AdvancedTradingStrategy.new 100000).trade_history ++ [e] ∧
      (e.action = "BUY" ↔
        ((AdvancedTradingStrategy.new 100000).cash > (tradeBars.getD 55 {}).close ∧
            (AdvancedTradingStrategy.new 100000).consecutive_losses < 3) ∧
          (entryA (backtestIndicators sqrtApprox tradeBars) 55 ∨
            entryB (backtestIndicators sqrtApprox tradeBars) 55 ∨
            entryC (backtestIndicators sqrtApprox tradeBars) 55 ∨
            entryD (backtestIndicators sqrtApprox tradeBars) 55)) ∧
      (e.action = "BUY" → entryA (backtestIndicators sqrtApprox tradeBars) 55 →
        e.reason = "Strong Oversold + MACD Bull + Uptrend") ∧
      (e.action = "BUY" → ¬ entryA (backtestIndicators sqrtApprox tradeBars) 55 →
        entryB (backtestIndicators sqrtApprox tradeBars) 55 →
        e.reason = "MACD Crossover + RSI Neutral + Uptrend") ∧
      (e.action = "BUY" → ¬ entryA (backtestIndicators sqrtApprox tradeBars) 55 →
        ¬ entryB (backtestIndicators sqrtApprox tradeBars) 55 →
        entryC (backtestIndicators sqrtApprox tradeBars) 55 →
        e.reason = "BB Lower Bounce + RSI Oversold") ∧
      (e.action = "BUY" → ¬ entryA (backtestIndicators sqrtApprox tradeBars) 55 →
        ¬ entryB (backtestIndicators sqrtApprox tradeBars) 55 →
        ¬ entryC (backtestIndicators sqrtApprox tradeBars) 55 →
        e.reason = "RSI Oversold + Uptrend + MACD Improving") ∧
      (e.action ≠ "BUY" → e.action = "HOLD" ∧ e.reason = "No signal") :=
  ⟨rfl,
    backtestStep_entry_decision sqrtApprox tradeBars (AdvancedTradingStrategy.new 100000) 55
      rfl⟩

/-- Witness for C17: bar 56 of `tradeBars` (close `82`) in `holdingState`, a position
entered at `81`. -/
theorem backtestStep_exit_decision_witness :
    (0 < holdingState.shares ∧
      -(8 / 100) < ((tradeBars.getD 56 {}).close - holdingState.entry_price) /
        holdingState.entry_price ∧
      ((tradeBars.getD 56 {}).close - holdingState.entry_price) /
        holdingState.entry_price < 12 / 100) ∧
    ∃ e, (backtestStep (backtestIndicators sqrtApprox tradeBars) tradeBars
          holdingState 56).trade_history =
        holdingState.trade_history ++ [e] ∧
      (e.action = "SELL" ↔
        (exitA (backtestIndicators sqrtApprox tradeBars) 56 ∨
          exitB (backtestIndicators sqrtApprox tradeBars) 56 ∨
          exitC (backtestIndicators sqrtApprox tradeBars) 56)) ∧
      (e.action = "SELL" → exitA (backtestIndicators sqrtApprox tradeBars) 56 →
        e.reason = "RSI Overbought + MACD Bearish") ∧
      (e.action = "SELL" → ¬ exitA (backtestIndicators sqrtApprox tradeBars) 56 →
        exitB (backtestIndicators sqrtApprox tradeBars) 56 →
        e.reason = "MACD Bearish Crossover") ∧
      (e.action = "SELL" → ¬ exitA (backtestIndicators sqrtApprox tradeBars) 56 →
        ¬ exitB (backtestIndicators sqrtApprox tradeBars) 56 →
        e.reason = "Trend Reversal") ∧
      (e.action ≠ "SELL" → e.action = "HOLD" ∧ e.reason = "No signal" ∧
        (backtestStep (backtestIndicators sqrtApprox tradeBars) tradeBars
          holdingState 56).cash = holdingState.cash ∧
        (backtestStep (backtestIndicators sqrtApprox tradeBars) tradeBars
          holdingState 56).shares = holdingState.shares ∧
        (backtestStep (backtestIndicators sqrtApprox tradeBars) tradeBars
          holdingState 56).entry_price = holdingState.entry_price ∧
        (backtestStep (backtestIndicators sqrtApprox tradeBars) tradeBars
          holdingState 56).consecutive_losses =
            holdingState.consecutive_losses) :=
  ⟨⟨by decide!, by decide!, by decide!⟩,
    backtestStep_exit_decision sqrtApprox tradeBars holdingState 56 (by decide!) (by decide!)
      (by decide!)⟩

/-! ### Trades at the trade price -/

theorem executeTrade_value (st : AdvancedTradingStrategy) (data : PriceData)
    (action reason : String) (r m s : ℚ) :
    (executeTrade st data action reason r m s).cash +
        (executeTrade st data action reason r m s).shares * data.close =
      st.cash + st.shares * data.close := by
  unfold executeTrade
  dsimp only
  split_ifs with h1 h2
  · show st.cash - st.cash * position_size_pct / data.close * data.close +
      st.cash * position_size_pct / data.close * data.close = st.cash + st.shares * data.close
    rw [h1.2.1]
    ring
  · show st.cash + st.shares * data.close + 0 * data.close = st.cash + st.shares * data.close
    ring
  · rfl

theorem backtestStep_value (ind : Indicators) (price_data : List PriceData)
    (st : AdvancedTradingStrategy) (i : Nat) :
    (backtestStep ind price_data st i).cash +
        (backtestStep ind price_data st i).shares * (price_data.getD i {}).close =
      st.cash + st.shares * (price_data.getD i {}).close := by
  have hv := fun (action reason : String) =>
    executeTrade_value st (price_data.getD i {}) action reason (ind.rsi.getD i 0)
      (ind.macd_result.macd.getD i 0) (ind.macd_result.signal.getD i 0)
  unfold backtestStep
  dsimp only
  split_ifs
  · exact hv "SELL" "Stop Loss"
  · exact hv "SELL" "Take Profit"
  · exact hv "BUY" "Strong Oversold + MACD Bull + Uptrend"
  · exact hv "BUY" "MACD Crossover + RSI Neutral + Uptrend"
  · exact hv "BUY" "BB Lower Bounce + RSI Oversold"
  · exact hv "BUY" "RSI Oversold + Uptrend + MACD Improving"
  · exact hv "SELL" "RSI Overbought + MACD Bearish"
  · exact hv "SELL" "MACD Bearish Crossover"
  · exact hv "SELL" "Trend Reversal"
  · rfl

/-- C21: at a bar with close `p > 0`, whether the bar executes a BUY, a SELL or a HOLD,
the logged `portfolio_value` (new cash + new shares * `p`) equals old cash + old
shares * `p` on the state before the bar; the `portfolio_value` of a BUY entry is the
cash held just before the BUY and that of a SELL entry is the cash held just after the
SELL. (The equalities are ring identities of the trade arithmetic; the hypothesis
`p > 0` keeps the statement to bars where the division of the BUY branch is defined.) -/
theorem backtestStep_value_neutral (sqrt : ℚ → ℚ) (price_data : List PriceData)
    (st : AdvancedTradingStrategy) (i : Nat) (_hp : 0 < (price_data.getD i {}).close) :
    ∃ e, (backtestStep (backtestIndicators sqrt price_data) price_data st i).trade_history =
        st.trade_history ++ [e] ∧
      (e.action = "BUY" ∨ e.action = "SELL" ∨ e.action = "HOLD") ∧
      e.portfolio_value =
        (backtestStep (backtestIndicators sqrt price_data) price_data st i).cash +
          (backtestStep (backtestIndicators sqrt price_data) price_data st i).shares *
            (price_data.getD i {}).close ∧
      e.portfolio_value = st.cash + st.shares * (price_data.getD i {}).close ∧
      (e.action = "BUY" → e.portfolio_value = st.cash) ∧
      (e.action = "SELL" → e.portfolio_value =
        (backtestStep (backtestIndicators sqrt price_data) price_data st i).cash) := by
  obtain ⟨action, reason, hlog, hcase⟩ :=
    backtestStep_signal (backtestIndicators sqrt price_data) price_data st i
      (indicators_prices_getD sqrt price_data i)
  obtain ⟨e0, hlog0, hcase0⟩ :=
    backtestStep_cases (backtestIndicators sqrt price_data) price_data st i
      (indicators_prices_getD sqrt price_data i)
  have hval := backtestStep_value (backtestIndicators sqrt price_data) price_data st i
  have he : e0 = TradingSignal.mk (price_data.getD i {}).date action
      (price_data.getD i {}).close ((backtestIndicators sqrt price_data).rsi.getD i 0)
      ((backtestIndicators sqrt price_data).macd_result.macd.getD i 0)
      ((backtestIndicators sqrt price_data).macd_result.signal.getD i 0)
      ((backtestStep (backtestIndicators sqrt price_data) price_data st i).cash +
        (backtestStep (backtestIndicators sqrt price_data) price_data st i).shares *
          (price_data.getD i {}).close) reason := by
    rw [hlog0] at hlog
    have := List.append_cancel_left hlog
    simpa using this
  subst he
  refine ⟨_, hlog, ?_, rfl, hval, ?_, ?_⟩
  · show action = "BUY" ∨ action = "SELL" ∨ action = "HOLD"
    rcases hcase with ⟨ha, _⟩ | ⟨ha, _⟩ | ⟨ha, _⟩ | ⟨ha, _⟩ | ⟨ha, _⟩
    · exact Or.inr (Or.inl ha)
    · exact Or.inr (Or.inl ha)
    · exact Or.inl ha
    · exact Or.inr (Or.inl ha)
    · exact Or.inr (Or.inr ha)
  · intro hbuy
    show (backtestStep (backtestIndicators sqrt price_data) price_data st i).cash +
      (backtestStep (backtestIndicators sqrt price_data) price_data st i).shares *
        (price_data.getD i {}).close = st.cash
    rcases hcase0 with ⟨ha, _⟩ | ⟨_, hsh, _⟩ | ⟨ha, _⟩
    · exact absurd (ha.symm.trans hbuy) (by decide)
    · rw [hval, hsh]; ring
    · exact absurd (ha.symm.trans hbuy) (by decide)
  · intro hsell
    show (backtestStep (backtestIndicators sqrt price_data) price_data st i).cash +
      (backtestStep (backtestIndicators sqrt price_data) price_data st i).shares *
        (price_data.getD i {}).close = _
    rcases hcase0 with ⟨_, _, hsh, _⟩ | ⟨ha, _⟩ | ⟨ha, _⟩
    · rw [hsh]; ring
    · exact absurd (ha.symm.trans hsell) (by decide)
    · exact absurd (ha.symm.trans hsell) (by decide)

/-- Witness for C21: bar 55 of `tradeBars` (close `81`, a BUY) in the fresh state with a
cash of `100000`. -/
theorem backtestStep_value_neutral_witness :
    0 < (tradeBars.getD 55 {}).close ∧
    ∃ e, (backtestStep (backtestIndicators sqrtApprox tradeBars) tradeBars
          (AdvancedTradingStrategy.new 100000) 55).trade_history =
        (AdvancedTradingStrategy.new 100000).trade_history ++ [e] ∧
      (e.action = "BUY" ∨ e.action = "SELL" ∨ e.action = "HOLD") ∧
      e.portfolio_value =
        (backtestStep (backtestIndicators sqrtApprox tradeBars) tradeBars
          (AdvancedTradingStrategy.new 100000) 55).cash +
          (backtestStep (backtestIndicators sqrtApprox tradeBars) tradeBars
            (AdvancedTradingStrategy.new 100000) 55).shares * (tradeBars.getD 55 {}).close ∧
      e.portfolio_value = (AdvancedTradingStrategy.new 100000).cash +
        (AdvancedTradingStrategy.new 100000).shares * (tradeBars.getD 55 {}).close ∧
      (e.action = "BUY" → e.portfolio_value = (AdvancedTradingStrategy.new 100000).cash) ∧
      (e.action = "SELL" → e.portfolio_value =
        (backtestStep (backtestIndicators sqrtApprox tradeBars) tradeBars
          (AdvancedTradingStrategy.new 100000) 55).cash) :=
  ⟨by decide!,
    backtestStep_value_neutral sqrtApprox tradeBars (AdvancedTradingStrategy.new 100000) 55
      (by decide!)⟩

end FinSimX
